import Mathlib

/-!
Shallow embedding of `src/cpu/spmm.cpp` (pytorch_sparse CPU SpMM kernels).

Modelling conventions:
* Scalar elements are modelled as unbounded `Int`; the templated dispatch over
  concrete C++ scalar types is reflected by passing the instantiated type's
  `std::numeric_limits<scalar_t>::max()` / `::lowest()` explicitly as the
  parameters `smax` / `smin` (they are only consumed by `Reducer.init` for the
  MIN/MAX reductions, exactly as in the source).  For `int64_t` these are
  `2^63 - 1` and `-2^63`.
* Integral division `/` on scalars is C++ truncating division, i.e. `Int.tdiv`
  (rounds toward zero).
* A tensor is its size list plus a flat contiguous data buffer `Int → Int`
  (reads at arbitrary, possibly out-of-range, flat indices are total, mirroring
  the raw-pointer reads of the source) plus its device flag.
* `torch::empty` contents are unobservable in the source (every slot in range
  is written); the model fills them with `0`.
* Errors (`AT_ASSERTM`, `std::map::at`, negative-size allocation, `size(-2)`
  on a rank-<2 tensor) are modelled with `Except Err`, keeping the source's
  check order.
-/

/-- enum ReductionType { SUM, MEAN, MIN, MAX }; -/
inductive ReductionType where
  | SUM | MEAN | MIN | MAX
deriving DecidableEq, Repr

/-- Error kinds surfaced by the two entry points. -/
inductive Err where
  | notCPU          -- CHECK_CPU failure
  | inputMismatch   -- AT_ASSERTM dim checks / negative-size alloc / size(-2) on rank<2
  | unknownReduce   -- std::map::at on reduce2REDUCE with an unknown key
deriving DecidableEq, Repr

/-- const std::map reduce2REDUCE: key lookup, `none` = key absent (map::at throws). -/
def reduce2REDUCE (r : String) : Option ReductionType :=
  if r = "sum" then some .SUM
  else if r = "add" then some .SUM
  else if r = "mean" then some .MEAN
  else if r = "min" then some .MIN
  else if r = "max" then some .MAX
  else none

namespace Reducer

/-- Reducer<scalar_t, REDUCE>::init(): 0 for SUM/MEAN, numeric_limits::max()
for MIN, numeric_limits::lowest() for MAX (`smax`/`smin` of the dispatched
scalar type). -/
def init (red : ReductionType) (smax smin : Int) : Int :=
  match red with
  | .MIN => smax
  | .MAX => smin
  | _ => 0

/-- Reducer::update(val, new_val, arg, new_arg): SUM/MEAN add; MIN/MAX replace
value and argument only on strict inequality.  Returns the new (val, arg). -/
def update (red : ReductionType) (v nv a na : Int) : Int × Int :=
  match red with
  | .SUM | .MEAN => (v + nv, a)
  | .MIN => if nv < v then (nv, na) else (v, a)
  | .MAX => if nv > v then (nv, na) else (v, a)

/-- Reducer::write(address, val, arg_address, arg, count).  Returns the value
written to `*address` and `some x` if `x` was written to `*arg_address`
(`none` = the argument slot was left untouched). -/
def write (red : ReductionType) (v a : Int) (count : Int) : Int × Option Int :=
  match red with
  | .SUM => (v, none)
  | .MEAN => (Int.tdiv v (if count > 0 then count else 1), none)
  | .MIN | .MAX => if count > 0 then (v, some a) else (0, none)

end Reducer

/-- A torch tensor: shape, flat contiguous data, device flag. -/
structure Tensor where
  sizes : List Nat
  data : Int → Int
  is_cuda : Bool

/-- Tensor::dim(). -/
def Tensor.dim (t : Tensor) : Nat := t.sizes.length

/-- Tensor::numel() (product of sizes). -/
def Tensor.numel (t : Tensor) : Nat := t.sizes.prod

/-- Tensor::size(-2). -/
def Tensor.size2 (t : Tensor) : Nat := t.sizes.getD (t.dim - 2) 0

/-- Tensor::size(-1). -/
def Tensor.size1 (t : Tensor) : Nat := t.sizes.getD (t.dim - 1) 0

/-- Device flag of an optional tensor (absent = not CUDA). -/
def optIsCUDA : Option Tensor → Bool
  | some t => t.is_cuda
  | none => false

/-- `value_opt.has_value() → value.dim() == 1` check. -/
def optDim1 : Option Tensor → Bool
  | some t => t.dim == 1
  | none => true

/-- Data pointer of the optional value tensor (read only under HAS_VAL). -/
def optData : Option Tensor → (Int → Int)
  | some t => t.data
  | none => fun _ => 0

/-- Pointwise store `buf[i] = x` on a flat buffer. -/
def updN (o : Nat → Int) (i : Nat) (x : Int) : Nat → Int :=
  fun j => if j = i then x else o j

/-- The loop `for (e = row_start; e < row_end; e++)`: the indices
`row_start, row_start+1, …, row_end-1` (empty when row_end ≤ row_start). -/
def entryList (s t : Int) : List Int :=
  (List.range (t - s).toNat).map (fun j : Nat => s + (j : Int))

/-- Parameters of one monomorphized `spmm` kernel instantiation. -/
structure SpmmP where
  red : ReductionType
  hasVal : Bool
  smax : Int
  smin : Int
  rowptrD : Int → Int
  colD : Int → Int
  valD : Int → Int
  matD : Int → Int
  E : Nat
  M : Nat
  N : Nat
  K : Nat
  B : Nat

/-- The candidate fed to Reducer::update for batch `b`, feature `k`, entry `e`:
`val * mat_data[b*N*K + c*K + k]` when HAS_VAL, else `mat_data[b*N*K + c*K + k]`
with `c = col_data[e]`. -/
def SpmmP.cand (P : SpmmP) (b k : Nat) (e : Int) : Int :=
  let c := P.colD e
  if P.hasVal then P.valD e * P.matD ((b * (P.N * P.K) : Nat) + c * (P.K : Nat) + (k : Nat))
  else P.matD ((b * (P.N * P.K) : Nat) + c * (P.K : Nat) + (k : Nat))

/-- The body of the entry loop: for one entry `e`, `Reducer::update` is applied
at every feature `k < K` to the (vals[k], args[k]) pair. -/
def SpmmP.entryStep (P : SpmmP) (b : Nat) (va : (Nat → Int) × (Nat → Int)) (e : Int) :
    (Nat → Int) × (Nat → Int) :=
  ((fun k => if k < P.K then (Reducer.update P.red (va.1 k) (P.cand b k e) (va.2 k) e).1 else va.1 k),
   (fun k => if k < P.K then (Reducer.update P.red (va.1 k) (P.cand b k e) (va.2 k) e).2 else va.2 k))

/-- The two inner loops of one (b, m) iteration: `vals[k]` is re-initialized to
Reducer::init, `args` enters with its current (possibly stale) contents, then
for each entry `e` of the row and each feature `k < K` Reducer::update is
applied.  Returns the final (vals, args). -/
def SpmmP.rowLoop (P : SpmmP) (b : Nat) (args0 : Nat → Int) (s t : Int) :
    (Nat → Int) × (Nat → Int) :=
  (entryList s t).foldl (P.entryStep b) ((fun _ => Reducer.init P.red P.smax P.smin), args0)

/-- Mutable state of the spmm loops: the output buffer, the argmin/argmax
buffer, and the `args` scratch vector (which, as in the source, is declared
outside the b/m loops and therefore persists across rows and batches). -/
structure SpmmSt where
  out : Nat → Int
  argOut : Nat → Int
  args : Nat → Int

/-- One (b, m) iteration of the spmm kernel, `n = b*M + m` in the flattened
iteration order (b outer, m inner). -/
def SpmmP.step (P : SpmmP) (st : SpmmSt) (n : Nat) : SpmmSt :=
  let b := n / P.M
  let m := n % P.M
  let s := P.rowptrD (m : Nat)
  let t := P.rowptrD ((m + 1 : Nat))
  let va := P.rowLoop b st.args s t
  let base := b * P.M * P.K + m * P.K
  { out := (List.range P.K).foldl
      (fun o k => updN o (base + k) (Reducer.write P.red (va.1 k) (va.2 k) (t - s)).1) st.out,
    argOut := (List.range P.K).foldl
      (fun o k =>
        match (Reducer.write P.red (va.1 k) (va.2 k) (t - s)).2 with
        | some x => updN o (base + k) x
        | none => o) st.argOut,
    args := va.2 }

/-- Initial buffers: `out = torch::empty` (contents unobservable, modelled 0),
`arg_out = torch::full_like(out, col.numel())` (fill value E), args vector
value-initialized to 0. -/
def SpmmP.initSt (P : SpmmP) : SpmmSt :=
  ⟨fun _ => 0, fun _ => (P.E : Int), fun _ => 0⟩

/-- The full b/m loop nest of the spmm kernel. -/
def SpmmP.run (P : SpmmP) : SpmmSt :=
  (List.range (P.B * P.M)).foldl P.step P.initSt

/-- The kernel parameters assembled by `spmm` from its tensor arguments:
`M = rowptr.numel()-1`, `N = mat.size(-2)`, `K = mat.size(-1)`,
`B = mat.numel()/(N*K)`, `E = col.numel()`. -/
def mkP (smax smin : Int) (rowptr col : Tensor) (valueOpt : Option Tensor)
    (mat : Tensor) (red : ReductionType) : SpmmP :=
  { red := red, hasVal := valueOpt.isSome, smax := smax, smin := smin,
    rowptrD := rowptr.data, colD := col.data, valD := optData valueOpt,
    matD := mat.data, E := col.numel, M := rowptr.numel - 1, N := mat.size2,
    K := mat.size1, B := mat.numel / (mat.size2 * mat.size1) }

/-- spmm(rowptr, col, value_opt, mat, reduce), src/cpu/spmm.cpp lines 88-176.
`smax`/`smin` are numeric_limits max/lowest of the dispatched scalar type. -/
def spmm (smax smin : Int) (rowptr col : Tensor) (valueOpt : Option Tensor)
    (mat : Tensor) (reduce : String) :
    Except Err ((Nat → Int) × Option (Nat → Int)) :=
  -- CHECK_CPU on rowptr, col, value_opt, mat
  if rowptr.is_cuda ∨ col.is_cuda ∨ optIsCUDA valueOpt ∨ mat.is_cuda then .error .notCPU
  -- AT_ASSERTM dim checks
  else if ¬ (rowptr.dim = 1 ∧ col.dim = 1 ∧ optDim1 valueOpt = true ∧ 2 ≤ mat.dim) then
    .error .inputMismatch
  -- sizes[mat.dim()-2] = rowptr.numel()-1; torch::empty rejects a negative size
  else if rowptr.numel = 0 then .error .inputMismatch
  else
    match reduce2REDUCE reduce with
    | none => .error .unknownReduce   -- reduce2REDUCE.at throws std::out_of_range
    | some red =>
      let st := (mkP smax smin rowptr col valueOpt mat red).run
      .ok (st.out, if red = .MIN ∨ red = .MAX then some st.argOut else none)

/-- Parameters of one monomorphized `spmm_val_bw` kernel instantiation. -/
structure BwP where
  red : ReductionType
  rowD : Int → Int
  rowptrD : Int → Int
  colD : Int → Int
  matD : Int → Int
  gradD : Int → Int
  E : Nat
  M : Nat
  N : Nat
  K : Nat
  B : Nat

/-- The inner k-loop: `val = 0; for k: val += mat_data[b*N*K + col*K + k] *
grad_data[b*M*K + row*K + k]`. -/
def BwP.dot (P : BwP) (b e : Nat) : Int :=
  let r := P.rowD (e : Nat)
  let c := P.colD (e : Nat)
  (List.range P.K).foldl
    (fun v k => v + P.matD ((b * (P.N * P.K) : Nat) + c * (P.K : Nat) + (k : Nat)) *
                    P.gradD ((b * (P.M * P.K) : Nat) + r * (P.K : Nat) + (k : Nat))) 0

/-- The per-(b, e) contribution: the dot product, divided (C++ integral `/=`,
truncation toward zero) by `max(rowptr[row+1] - rowptr[row], 1)` when the
reduction is MEAN. -/
def BwP.entryVal (P : BwP) (b e : Nat) : Int :=
  let v := P.dot b e
  if P.red = .MEAN then
    let r := P.rowD (e : Nat)
    Int.tdiv v (max (P.rowptrD (r + 1) - P.rowptrD r) 1)
  else v

/-- The full b/e loop nest of spmm_val_bw over the zero-initialized output:
`out_data[e] += val`. -/
def BwP.run (P : BwP) : Nat → Int :=
  (List.range P.B).foldl
    (fun buf b => (List.range P.E).foldl
      (fun buf2 e => updN buf2 e (buf2 e + P.entryVal b e)) buf)
    (fun _ => 0)

/-- The kernel parameters assembled by `spmm_val_bw` from its tensor arguments:
`M = grad.size(-2)`, `N = mat.size(-2)`, `E = row.numel()`, `K = mat.size(-1)`,
`B = mat.numel()/(N*K)`. -/
def mkBwP (row rowptr col mat grad : Tensor) (red : ReductionType) : BwP :=
  { red := red, rowD := row.data, rowptrD := rowptr.data, colD := col.data,
    matD := mat.data, gradD := grad.data,
    E := row.numel, M := grad.size2, N := mat.size2, K := mat.size1,
    B := mat.numel / (mat.size2 * mat.size1) }

/-- spmm_val_bw(row, rowptr, col, mat, grad, reduce), src/cpu/spmm.cpp lines
178-227.  Note: apart from CHECK_CPU (and `size(-2)` requiring rank ≥ 2 on mat
and grad), the source performs no shape validation. -/
def spmm_val_bw (row rowptr col mat grad : Tensor) (reduce : String) :
    Except Err (Nat → Int) :=
  if row.is_cuda ∨ rowptr.is_cuda ∨ col.is_cuda ∨ mat.is_cuda ∨ grad.is_cuda then
    .error .notCPU
  else if ¬ (2 ≤ mat.dim ∧ 2 ≤ grad.dim) then .error .inputMismatch
  else
    match reduce2REDUCE reduce with
    | none => .error .unknownReduce
    | some red => .ok (mkBwP row rowptr col mat grad red).run

/-- Output value at flat index `i` of an spmm result, `none` on error. -/
def spmmOutAt (r : Except Err ((Nat → Int) × Option (Nat → Int))) (i : Nat) : Option Int :=
  match r with
  | .ok p => some (p.1 i)
  | .error _ => none

/-- arg_out value at flat index `i` of an spmm result, `none` on error or when
arg_out is absent. -/
def spmmArgAt (r : Except Err ((Nat → Int) × Option (Nat → Int))) (i : Nat) : Option Int :=
  match r with
  | .ok (_, some a) => some (a i)
  | _ => none

/-- Output value at index `e` of an spmm_val_bw result, `none` on error. -/
def bwOutAt (r : Except Err (Nat → Int)) (i : Nat) : Option Int :=
  match r with
  | .ok f => some (f i)
  | .error _ => none

/-- Scalar restriction of the row loop to one feature position `k`: the fold of
Reducer::update over the row's entries, acting on the single (val, arg) pair.
`g` is the candidate of an entry. -/
def rowFold (red : ReductionType) (g : Int → Int) (l : List Int) (va : Int × Int) : Int × Int :=
  l.foldl (fun va e => Reducer.update red va.1 (g e) va.2 e) va

/-- The (vals, args) pair produced by iteration `n = b*M + m`, starting from
args contents `a0`. -/
def SpmmP.rowAt (P : SpmmP) (n : Nat) (a0 : Nat → Int) : (Nat → Int) × (Nat → Int) :=
  P.rowLoop (n / P.M) a0 (P.rowptrD ((n % P.M : Nat))) (P.rowptrD ((n % P.M + 1 : Nat)))

/-- Contents of the persistent `args` vector right before iteration `n`. -/
def SpmmP.argsAt (P : SpmmP) : Nat → (Nat → Int)
  | 0 => fun _ => 0
  | n + 1 => (P.rowAt n (P.argsAt n)).2

/-- `row_end - row_start` of iteration `n`'s row. -/
def SpmmP.cnt (P : SpmmP) (n : Nat) : Int :=
  P.rowptrD ((n % P.M + 1 : Nat)) - P.rowptrD ((n % P.M : Nat))

/-- The value Reducer::write stores into `out` at slot `(n, k)`. -/
def SpmmP.cellOut (P : SpmmP) (n k : Nat) : Int :=
  (Reducer.write P.red ((P.rowAt n (P.argsAt n)).1 k) ((P.rowAt n (P.argsAt n)).2 k) (P.cnt n)).1

/-- The final contents of `arg_out` at slot `(n, k)`: the written argument, or
the `full_like` fill value `E` when Reducer::write leaves the slot untouched. -/
def SpmmP.cellArg (P : SpmmP) (n k : Nat) : Int :=
  match (Reducer.write P.red ((P.rowAt n (P.argsAt n)).1 k) ((P.rowAt n (P.argsAt n)).2 k) (P.cnt n)).2 with
  | some x => x
  | none => (P.E : Int)

/-- The spec's weight(e): `value[e]` when the value tensor is present, else 1. -/
def weightOf : Option Tensor → Int → Int
  | some v => fun e => v.data e
  | none => fun _ => 1

/-- The weighted contribution of entry `e` at batch `b`, feature `k`:
`weight(e) * dense[b, col[e], k]` on the flat dense buffer. -/
def wcontrib (valueOpt : Option Tensor) (mat col : Tensor) (N K b k : Nat) (e : Int) : Int :=
  weightOf valueOpt e * mat.data ((b * (N * K) : Nat) + col.data e * (K : Nat) + (k : Nat))

/-- The entry indices of row `m`: `[rowptr[m], rowptr[m+1])`. -/
def rowEntries (rowptr : Tensor) (m : Nat) : List Int :=
  entryList (rowptr.data ((m : Nat))) (rowptr.data ((m + 1 : Nat)))

/-- The weighted contribution as a function of the (col, weight) pair of an
entry (used to state permutation invariance). -/
def candPair (mat : Tensor) (N K b k : Nat) (pr : Int × Int) : Int :=
  pr.2 * mat.data ((b * (N * K) : Nat) + pr.1 * (K : Nat) + (k : Nat))

/-- Flat buffer built from a list (reads below 0 or past the end give 0). -/
def listData (l : List Int) : Int → Int :=
  fun i => if 0 ≤ i then l.getD i.toNat 0 else 0

/-- numeric_limits<int64_t>::max(). -/
def i64max : Int := 2 ^ 63 - 1

/-- numeric_limits<int64_t>::lowest(). -/
def i64min : Int := -(2 ^ 63)

/-! Concrete tensors used by witnesses and counterexamples.  Scenario A is the
spec's concrete scenario: `rowptr=[0,2,3]`, `col=[0,1,0]`, `value=[1,2,3]`,
dense `(1,2,1)` with values `[5,7]`. -/

/-- Scenario A rowptr. -/
def rpA : Tensor := ⟨[3], listData [0, 2, 3], false⟩

/-- Scenario A col. -/
def clA : Tensor := ⟨[3], listData [0, 1, 0], false⟩

/-- Scenario A value. -/
def vlA : Tensor := ⟨[3], listData [1, 2, 3], false⟩

/-- Scenario A dense operand, shape (1,2,1). -/
def mtA : Tensor := ⟨[1, 2, 1], listData [5, 7], false⟩

/-- Scenario A col with row 0's two entries swapped (a within-row permutation). -/
def clA2 : Tensor := ⟨[3], listData [1, 0, 0], false⟩

/-- Scenario A value with row 0's two entries swapped. -/
def vlA2 : Tensor := ⟨[3], listData [2, 1, 3], false⟩

/-- Scenario A row coordinates (for the backward kernel): `row=[0,0,1]`. -/
def rwA : Tensor := ⟨[3], listData [0, 0, 1], false⟩

/-- Scenario A upstream gradient, shape (1,2,1). -/
def gdA : Tensor := ⟨[1, 2, 1], listData [10, 100], false⟩

/-- Scenario B (negative mean): `rowptr=[0,2,2]`, `col=[0,1]`, no value tensor,
dense `(1,2,1)` values `[-1,-2]`; row 0 sums to -3 over 2 entries. -/
def rpB : Tensor := ⟨[3], listData [0, 2, 2], false⟩

/-- Scenario B col. -/
def clB : Tensor := ⟨[2], listData [0, 1], false⟩

/-- Scenario B dense operand. -/
def mtB : Tensor := ⟨[1, 2, 1], listData [-1, -2], false⟩

/-- Scenario B row coordinates. -/
def rwB : Tensor := ⟨[2], listData [0, 0], false⟩

/-- Scenario B upstream gradient, shape (1,2,1), values [5,0]. -/
def gdB : Tensor := ⟨[1, 2, 1], listData [5, 0], false⟩

/-- Scenario C (sentinel edge for C3): `rowptr=[0,1,2]`, `col=[0,1]`, no value,
dense `(1,2,1)` values `[5, 2^63-1]`: row 1's only entry contributes exactly
`numeric_limits<int64_t>::max()`. -/
def rpC : Tensor := ⟨[3], listData [0, 1, 2], false⟩

/-- Scenario C col. -/
def clC : Tensor := ⟨[2], listData [0, 1], false⟩

/-- Scenario C dense operand, with `mat[1] = numeric_limits<int64_t>::max()`. -/
def mtC : Tensor := ⟨[1, 2, 1], listData [5, i64max], false⟩

/-- Scenario D (sentinel tie for C8): `rowptr=[0,1,3]`, `col=[0,1,2]`, no value,
dense `(1,3,1)` values `[5, 2^63-1, 2^63-1]`: row 1's two entries tie at the
extremal (min) contribution `2^63-1`. -/
def rpD : Tensor := ⟨[3], listData [0, 1, 3], false⟩

/-- Scenario D col. -/
def clD : Tensor := ⟨[3], listData [0, 1, 2], false⟩

/-- Scenario D dense operand. -/
def mtD : Tensor := ⟨[1, 3, 1], listData [5, i64max, i64max], false⟩

/-- Scenario E (shape mismatch for C6): `row` has E = 2 entries but `col` has
only one element; `rowptr=[0,2]`, mat shape (2,1), grad shape (1,1). -/
def rwE : Tensor := ⟨[2], listData [0, 0], false⟩

/-- Scenario E rowptr. -/
def rpE : Tensor := ⟨[2], listData [0, 2], false⟩

/-- Scenario E col — length 1, inconsistent with `row.numel() = 2`. -/
def clE : Tensor := ⟨[1], listData [0], false⟩

/-- Scenario E dense operand, shape (2,1). -/
def mtE : Tensor := ⟨[2, 1], listData [5, 7], false⟩

/-- Scenario E gradient, shape (1,1). -/
def gdE : Tensor := ⟨[1, 1], listData [3], false⟩

/-- Alternative rowptr contents (same shape/device as rpB) for C9. -/
def rpB2 : Tensor := ⟨[3], listData [7, 9, 11], false⟩

/-! ## Generic loop lemmas -/

/-- The inner write loop `for k < K: buf[base+k] = f k` evaluated at `i`. -/
theorem updLoop_eq (o : Nat → Int) (base : Nat) (f : Nat → Int) (K : Nat) (i : Nat) :
    ((List.range K).foldl (fun o2 k => updN o2 (base + k) (f k)) o) i
      = if base ≤ i ∧ i < base + K then f (i - base) else o i := by
  induction K with
  | zero =>
    simp only [List.range_zero, List.foldl_nil]
    rw [if_neg (by omega)]
  | succ K ih =>
    rw [List.range_succ, List.foldl_append, List.foldl_cons, List.foldl_nil]
    simp only [updN]
    rw [ih]
    by_cases hi : i = base + K
    · subst hi
      rw [if_pos rfl]
      have hc : base ≤ base + K ∧ base + K < base + (K + 1) := ⟨by omega, by omega⟩
      rw [if_pos hc]
      have hb : base + K - base = K := by omega
      rw [hb]
    · rw [if_neg hi]
      by_cases hc : base ≤ i ∧ i < base + K
      · rw [if_pos hc, if_pos ⟨hc.1, by omega⟩]
      · rw [if_neg hc, if_neg (by omega)]

/-- The conditional write loop (arg_out): each slot `base+k` receives `x` when
`g k = some x` and keeps its previous contents when `g k = none`. -/
theorem updLoopOpt_eq (o : Nat → Int) (base : Nat) (g : Nat → Option Int) (K : Nat) (i : Nat) :
    ((List.range K).foldl
        (fun o2 k => match g k with | some x => updN o2 (base + k) x | none => o2) o) i
      = if base ≤ i ∧ i < base + K then
          (match g (i - base) with | some x => x | none => o i)
        else o i := by
  induction K with
  | zero =>
    simp only [List.range_zero, List.foldl_nil]
    rw [if_neg (by omega)]
  | succ K ih =>
    rw [List.range_succ, List.foldl_append, List.foldl_cons, List.foldl_nil]
    have hb : base + K - base = K := by omega
    rcases hg : g K with _ | x
    · simp only [hg]
      rw [ih]
      by_cases hi : i = base + K
      · subst hi
        rw [if_neg (by omega)]
        have hc : base ≤ base + K ∧ base + K < base + (K + 1) := ⟨by omega, by omega⟩
        rw [if_pos hc, hb, hg]
      · by_cases hc : base ≤ i ∧ i < base + K
        · rw [if_pos hc, if_pos ⟨hc.1, by omega⟩]
        · rw [if_neg hc, if_neg (by omega)]
    · simp only [hg, updN]
      by_cases hi : i = base + K
      · subst hi
        rw [if_pos rfl]
        have hc : base ≤ base + K ∧ base + K < base + (K + 1) := ⟨by omega, by omega⟩
        rw [if_pos hc, hb, hg]
      · rw [if_neg hi, ih]
        by_cases hc : base ≤ i ∧ i < base + K
        · rw [if_pos hc, if_pos ⟨hc.1, by omega⟩]
        · rw [if_neg hc, if_neg (by omega)]

/-- Accumulating fold equals the initial value plus the sum of contributions. -/
theorem foldl_add_eq_sum (l : List Nat) (f : Nat → Int) (v0 : Int) :
    l.foldl (fun v x => v + f x) v0 = v0 + (l.map f).sum := by
  induction l generalizing v0 with
  | nil => simp
  | cons x rest ih => simp [ih, add_assoc]

/-! ## rowFold closed forms per reduction -/

/-- rowFold unfolding on a cons cell. -/
theorem rowFold_cons (red : ReductionType) (g : Int → Int) (e : Int) (l : List Int)
    (va : Int × Int) :
    rowFold red g (e :: l) va
      = rowFold red g l (Reducer.update red va.1 (g e) va.2 e) := rfl

/-- For SUM/MEAN, the row fold accumulates the sum of the candidates and never
touches the argument. -/
theorem rowFold_sum (red : ReductionType) (hred : red = .SUM ∨ red = .MEAN)
    (g : Int → Int) (l : List Int) (v0 a0 : Int) :
    rowFold red g l (v0, a0) = (v0 + (l.map g).sum, a0) := by
  induction l generalizing v0 with
  | nil => simp [rowFold]
  | cons e rest ih =>
    rw [rowFold_cons]
    have hupd : Reducer.update red v0 (g e) a0 e = (v0 + g e, a0) := by
      rcases hred with h | h <;> subst h <;> rfl
    rw [hupd, ih]
    simp [add_assoc]

/-- For MIN, the accumulated value is the fold of `min` over the candidates. -/
theorem rowFold_min_fst (g : Int → Int) (l : List Int) (v0 a0 : Int) :
    (rowFold .MIN g l (v0, a0)).1 = l.foldl (fun v e => min v (g e)) v0 := by
  induction l generalizing v0 a0 with
  | nil => rfl
  | cons e rest ih =>
    rw [rowFold_cons, List.foldl_cons]
    show (rowFold .MIN g rest (if g e < v0 then (g e, e) else (v0, a0))).1 = _
    by_cases h : g e < v0
    · rw [if_pos h, ih, min_eq_right (le_of_lt h)]
    · rw [if_neg h, ih, min_eq_left (le_of_not_lt h)]

/-- For MAX, the accumulated value is the fold of `max` over the candidates. -/
theorem rowFold_max_fst (g : Int → Int) (l : List Int) (v0 a0 : Int) :
    (rowFold .MAX g l (v0, a0)).1 = l.foldl (fun v e => max v (g e)) v0 := by
  induction l generalizing v0 a0 with
  | nil => rfl
  | cons e rest ih =>
    rw [rowFold_cons, List.foldl_cons]
    show (rowFold .MAX g rest (if g e > v0 then (g e, e) else (v0, a0))).1 = _
    by_cases h : g e > v0
    · rw [if_pos h, ih, max_eq_right (le_of_lt h)]
    · rw [if_neg h, ih, max_eq_left (le_of_not_lt h)]

/-- The min fold is bounded by its starting value. -/
theorem foldl_min_le_init (g : Int → Int) (l : List Int) (v0 : Int) :
    l.foldl (fun v e => min v (g e)) v0 ≤ v0 := by
  induction l generalizing v0 with
  | nil => exact le_refl _
  | cons e rest ih =>
    rw [List.foldl_cons]
    exact le_trans (ih _) (min_le_left _ _)

/-- The min fold is bounded by every candidate in the list. -/
theorem foldl_min_le_mem (g : Int → Int) (l : List Int) (v0 : Int) (e : Int) (he : e ∈ l) :
    l.foldl (fun v e => min v (g e)) v0 ≤ g e := by
  induction l generalizing v0 with
  | nil => cases he
  | cons x rest ih =>
    rw [List.foldl_cons]
    rcases List.mem_cons.mp he with h | h
    · subst h
      exact le_trans (foldl_min_le_init _ _ _) (min_le_right _ _)
    · exact ih _ h

/-- The max fold dominates its starting value. -/
theorem foldl_max_ge_init (g : Int → Int) (l : List Int) (v0 : Int) :
    v0 ≤ l.foldl (fun v e => max v (g e)) v0 := by
  induction l generalizing v0 with
  | nil => exact le_refl _
  | cons e rest ih =>
    rw [List.foldl_cons]
    exact le_trans (le_max_left _ _) (ih _)

/-- The max fold dominates every candidate in the list. -/
theorem foldl_max_ge_mem (g : Int → Int) (l : List Int) (v0 : Int) (e : Int) (he : e ∈ l) :
    g e ≤ l.foldl (fun v e => max v (g e)) v0 := by
  induction l generalizing v0 with
  | nil => cases he
  | cons x rest ih =>
    rw [List.foldl_cons]
    rcases List.mem_cons.mp he with h | h
    · subst h
      exact le_trans (le_max_right _ _) (foldl_max_ge_init _ _ _)
    · exact ih _ h

/-- If no candidate is strictly below the starting value, the MIN fold never
updates: value and argument both survive unchanged. -/
theorem rowFold_min_stable (g : Int → Int) (l : List Int) (v0 a0 : Int)
    (h : ∀ e ∈ l, ¬ g e < v0) :
    rowFold .MIN g l (v0, a0) = (v0, a0) := by
  induction l with
  | nil => rfl
  | cons e rest ih =>
    rw [rowFold_cons]
    show rowFold .MIN g rest (if g e < v0 then (g e, e) else (v0, a0)) = _
    rw [if_neg (h e (List.mem_cons_self e rest))]
    exact ih (fun x hx => h x (List.mem_cons_of_mem e hx))

/-- If no candidate is strictly above the starting value, the MAX fold never
updates. -/
theorem rowFold_max_stable (g : Int → Int) (l : List Int) (v0 a0 : Int)
    (h : ∀ e ∈ l, ¬ g e > v0) :
    rowFold .MAX g l (v0, a0) = (v0, a0) := by
  induction l with
  | nil => rfl
  | cons e rest ih =>
    rw [rowFold_cons]
    show rowFold .MAX g rest (if g e > v0 then (g e, e) else (v0, a0)) = _
    rw [if_neg (h e (List.mem_cons_self e rest))]
    exact ih (fun x hx => h x (List.mem_cons_of_mem e hx))

/-- When some candidate lies strictly below the starting value, the MIN fold's
final argument is a member of the list attaining the final value, and it is the
first list element attaining that value (later ties do not replace it). -/
theorem rowFold_min_argchar (g : Int → Int) (l : List Int) (v0 a0 : Int)
    (h : ∃ e ∈ l, g e < v0) :
    (rowFold .MIN g l (v0, a0)).2 ∈ l ∧
    g (rowFold .MIN g l (v0, a0)).2 = (rowFold .MIN g l (v0, a0)).1 ∧
    l.find? (fun e => decide (g e = (rowFold .MIN g l (v0, a0)).1))
      = some (rowFold .MIN g l (v0, a0)).2 := by
  induction l generalizing v0 a0 with
  | nil =>
    obtain ⟨e, he, _⟩ := h
    cases he
  | cons x rest ih =>
    rw [rowFold_cons]
    have hupd : Reducer.update ReductionType.MIN v0 (g x) a0 x
        = if g x < v0 then (g x, x) else (v0, a0) := rfl
    rw [hupd]
    by_cases hx : g x < v0
    · rw [if_pos hx]
      by_cases hrest : ∃ e ∈ rest, g e < g x
      · obtain ⟨hmem, heq, hfind⟩ := ih (g x) x hrest
        refine ⟨List.mem_cons_of_mem _ hmem, heq, ?_⟩
        obtain ⟨e, he, hlt⟩ := hrest
        have hR1 : (rowFold .MIN g rest (g x, x)).1 ≤ g e := by
          rw [rowFold_min_fst]
          exact foldl_min_le_mem g rest (g x) e he
        have hne : ¬ (g x = (rowFold .MIN g rest (g x, x)).1) := by omega
        rw [List.find?_cons_of_neg _ (by simpa using hne)]
        exact hfind
      · have hst := rowFold_min_stable g rest (g x) x
          (fun e he hlt => hrest ⟨e, he, hlt⟩)
        rw [hst]
        refine ⟨List.mem_cons_self _ _, rfl, ?_⟩
        rw [List.find?_cons_of_pos _ (by simp)]
    · rw [if_neg hx]
      have hrest : ∃ e ∈ rest, g e < v0 := by
        obtain ⟨e, he, hlt⟩ := h
        rcases List.mem_cons.mp he with rfl | hm
        · exact absurd hlt hx
        · exact ⟨e, hm, hlt⟩
      obtain ⟨hmem, heq, hfind⟩ := ih v0 a0 hrest
      refine ⟨List.mem_cons_of_mem _ hmem, heq, ?_⟩
      obtain ⟨e, he, hlt⟩ := hrest
      have hR1 : (rowFold .MIN g rest (v0, a0)).1 ≤ g e := by
        rw [rowFold_min_fst]
        exact foldl_min_le_mem g rest v0 e he
      have hvx : v0 ≤ g x := le_of_not_lt hx
      have hne : ¬ (g x = (rowFold .MIN g rest (v0, a0)).1) := by omega
      rw [List.find?_cons_of_neg _ (by simpa using hne)]
      exact hfind

/-- MAX dual of `rowFold_min_argchar`. -/
theorem rowFold_max_argchar (g : Int → Int) (l : List Int) (v0 a0 : Int)
    (h : ∃ e ∈ l, g e > v0) :
    (rowFold .MAX g l (v0, a0)).2 ∈ l ∧
    g (rowFold .MAX g l (v0, a0)).2 = (rowFold .MAX g l (v0, a0)).1 ∧
    l.find? (fun e => decide (g e = (rowFold .MAX g l (v0, a0)).1))
      = some (rowFold .MAX g l (v0, a0)).2 := by
  induction l generalizing v0 a0 with
  | nil =>
    obtain ⟨e, he, _⟩ := h
    cases he
  | cons x rest ih =>
    rw [rowFold_cons]
    have hupd : Reducer.update ReductionType.MAX v0 (g x) a0 x
        = if g x > v0 then (g x, x) else (v0, a0) := rfl
    rw [hupd]
    by_cases hx : g x > v0
    · rw [if_pos hx]
      by_cases hrest : ∃ e ∈ rest, g e > g x
      · obtain ⟨hmem, heq, hfind⟩ := ih (g x) x hrest
        refine ⟨List.mem_cons_of_mem _ hmem, heq, ?_⟩
        obtain ⟨e, he, hlt⟩ := hrest
        have hR1 : g e ≤ (rowFold .MAX g rest (g x, x)).1 := by
          rw [rowFold_max_fst]
          exact foldl_max_ge_mem g rest (g x) e he
        have hne : ¬ (g x = (rowFold .MAX g rest (g x, x)).1) := by omega
        rw [List.find?_cons_of_neg _ (by simpa using hne)]
        exact hfind
      · have hst := rowFold_max_stable g rest (g x) x
          (fun e he hlt => hrest ⟨e, he, hlt⟩)
        rw [hst]
        refine ⟨List.mem_cons_self _ _, rfl, ?_⟩
        rw [List.find?_cons_of_pos _ (by simp)]
    · rw [if_neg hx]
      have hrest : ∃ e ∈ rest, g e > v0 := by
        obtain ⟨e, he, hlt⟩ := h
        rcases List.mem_cons.mp he with rfl | hm
        · exact absurd hlt hx
        · exact ⟨e, hm, hlt⟩
      obtain ⟨hmem, heq, hfind⟩ := ih v0 a0 hrest
      refine ⟨List.mem_cons_of_mem _ hmem, heq, ?_⟩
      obtain ⟨e, he, hlt⟩ := hrest
      have hR1 : g e ≤ (rowFold .MAX g rest (v0, a0)).1 := by
        rw [rowFold_max_fst]
        exact foldl_max_ge_mem g rest v0 e he
      have hvx : g x ≤ v0 := le_of_not_lt hx
      have hne : ¬ (g x = (rowFold .MAX g rest (v0, a0)).1) := by omega
      rw [List.find?_cons_of_neg _ (by simpa using hne)]
      exact hfind

/-! ## Kernel loop invariant -/

/-- Shape of Reducer::write's argument write: present exactly for MIN/MAX with
positive count. -/
theorem Reducer.write_snd (red : ReductionType) (v a c : Int) :
    (Reducer.write red v a c).2
      = if (red = .MIN ∨ red = .MAX) ∧ c > 0 then some a else none := by
  cases red with
  | SUM => simp [write]
  | MEAN => simp [write]
  | MIN => by_cases hc : c > 0 <;> simp [write, hc]
  | MAX => by_cases hc : c > 0 <;> simp [write, hc]

/-- Pointwise description of the vectorized entry fold: at each feature `k < K`
it acts as the scalar `rowFold`. -/
theorem SpmmP.entryStep_fold (P : SpmmP) (b : Nat) (l : List Int) (k : Nat) (hk : k < P.K) :
    ∀ p : (Nat → Int) × (Nat → Int),
      ((l.foldl (P.entryStep b) p).1 k, (l.foldl (P.entryStep b) p).2 k)
        = rowFold P.red (P.cand b k) l (p.1 k, p.2 k) := by
  induction l with
  | nil => intro p; rfl
  | cons e rest ih =>
    intro p
    rw [List.foldl_cons, rowFold_cons, ih (P.entryStep b p e)]
    congr 1
    simp only [SpmmP.entryStep, if_pos hk]

/-- Pointwise description of the row loop at a feature `k < K`. -/
theorem SpmmP.rowLoop_pt (P : SpmmP) (b : Nat) (a0 : Nat → Int) (s t : Int)
    (k : Nat) (hk : k < P.K) :
    ((P.rowLoop b a0 s t).1 k, (P.rowLoop b a0 s t).2 k)
      = rowFold P.red (P.cand b k) (entryList s t)
          (Reducer.init P.red P.smax P.smin, a0 k) :=
  P.entryStep_fold b (entryList s t) k hk _

/-- Invariant of the flattened b/m loop after `j` iterations: the args vector
is `argsAt j`; slots of already-visited iterations hold their cell values; all
other slots still hold their initial contents. -/
theorem SpmmP.fold_inv (P : SpmmP) (j : Nat) :
    ((List.range j).foldl P.step P.initSt).args = P.argsAt j
  ∧ (∀ n k, n < j → k < P.K →
      ((List.range j).foldl P.step P.initSt).out (n * P.K + k) = P.cellOut n k)
  ∧ (∀ i, j * P.K ≤ i → ((List.range j).foldl P.step P.initSt).out i = 0)
  ∧ (∀ n k, n < j → k < P.K →
      ((List.range j).foldl P.step P.initSt).argOut (n * P.K + k) = P.cellArg n k)
  ∧ (∀ i, j * P.K ≤ i → ((List.range j).foldl P.step P.initSt).argOut i = (P.E : Int)) := by
  induction j with
  | zero =>
    refine ⟨rfl, ?_, ?_, ?_, ?_⟩
    · intro n k hn _
      exact absurd hn (Nat.not_lt_zero n)
    · intro i _
      rfl
    · intro n k hn _
      exact absurd hn (Nat.not_lt_zero n)
    · intro i _
      rfl
  | succ j ih =>
    obtain ⟨iha, iho, iho0, ihg, ihg0⟩ := ih
    rw [List.range_succ, List.foldl_append, List.foldl_cons, List.foldl_nil]
    have hbase : j / P.M * P.M * P.K + j % P.M * P.K = j * P.K := by
      have hdm := Nat.div_add_mod j P.M
      calc j / P.M * P.M * P.K + j % P.M * P.K
          = (P.M * (j / P.M) + j % P.M) * P.K := by ring
        _ = j * P.K := by rw [hdm]
    have hsK : (j + 1) * P.K = j * P.K + P.K := by ring
    have hout : (P.step ((List.range j).foldl P.step P.initSt) j).out
        = (List.range P.K).foldl
            (fun o k2 => updN o (j / P.M * P.M * P.K + j % P.M * P.K + k2)
              (Reducer.write P.red
                ((P.rowLoop (j / P.M) ((List.range j).foldl P.step P.initSt).args
                    (P.rowptrD ((j % P.M : Nat))) (P.rowptrD ((j % P.M + 1 : Nat)))).1 k2)
                ((P.rowLoop (j / P.M) ((List.range j).foldl P.step P.initSt).args
                    (P.rowptrD ((j % P.M : Nat))) (P.rowptrD ((j % P.M + 1 : Nat)))).2 k2)
                (P.cnt j)).1)
            ((List.range j).foldl P.step P.initSt).out := rfl
    have hgout : (P.step ((List.range j).foldl P.step P.initSt) j).argOut
        = (List.range P.K).foldl
            (fun o k2 =>
              match (Reducer.write P.red
                ((P.rowLoop (j / P.M) ((List.range j).foldl P.step P.initSt).args
                    (P.rowptrD ((j % P.M : Nat))) (P.rowptrD ((j % P.M + 1 : Nat)))).1 k2)
                ((P.rowLoop (j / P.M) ((List.range j).foldl P.step P.initSt).args
                    (P.rowptrD ((j % P.M : Nat))) (P.rowptrD ((j % P.M + 1 : Nat)))).2 k2)
                (P.cnt j)).2 with
              | some x => updN o (j / P.M * P.M * P.K + j % P.M * P.K + k2) x
              | none => o)
            ((List.range j).foldl P.step P.initSt).argOut := rfl
    rw [iha] at hout hgout
    refine ⟨?_, ?_, ?_, ?_, ?_⟩
    · show (P.rowLoop (j / P.M) ((List.range j).foldl P.step P.initSt).args
          (P.rowptrD ((j % P.M : Nat))) (P.rowptrD ((j % P.M + 1 : Nat)))).2 = P.argsAt (j + 1)
      rw [iha]
      rfl
    · intro n k hn hk
      rw [hout]
      simp only [hbase]
      rw [updLoop_eq]
      rcases Nat.lt_succ_iff_lt_or_eq.mp hn with hlt | rfl
      · have hfar : n * P.K + k < j * P.K := by
          have h1 : n * P.K + k < (n + 1) * P.K := by
            rw [Nat.succ_mul]
            omega
          exact lt_of_lt_of_le h1 (Nat.mul_le_mul_right _ hlt)
        rw [if_neg (fun hc => absurd hc.1 (not_le.mpr hfar))]
        exact iho n k hlt hk
      · rw [if_pos ⟨Nat.le_add_right _ _, Nat.add_lt_add_left hk _⟩,
            Nat.add_sub_cancel_left]
        rfl
    · intro i hi
      rw [hout]
      simp only [hbase]
      rw [updLoop_eq]
      rw [hsK] at hi
      rw [if_neg (fun hc => absurd hc.2 (not_lt.mpr hi))]
      exact iho0 i (le_trans (Nat.le_add_right _ _) hi)
    · intro n k hn hk
      rw [hgout]
      simp only [hbase]
      rw [updLoopOpt_eq]
      rcases Nat.lt_succ_iff_lt_or_eq.mp hn with hlt | rfl
      · have hfar : n * P.K + k < j * P.K := by
          have h1 : n * P.K + k < (n + 1) * P.K := by
            rw [Nat.succ_mul]
            omega
          exact lt_of_lt_of_le h1 (Nat.mul_le_mul_right _ hlt)
        rw [if_neg (fun hc => absurd hc.1 (not_le.mpr hfar))]
        exact ihg n k hlt hk
      · rw [if_pos ⟨Nat.le_add_right _ _, Nat.add_lt_add_left hk _⟩,
            Nat.add_sub_cancel_left]
        rw [ihg0 _ (Nat.le_add_right _ _)]
        rfl
    · intro i hi
      rw [hgout]
      simp only [hbase]
      rw [updLoopOpt_eq]
      rw [hsK] at hi
      rw [if_neg (fun hc => absurd hc.2 (not_lt.mpr hi))]
      exact ihg0 i (le_trans (Nat.le_add_right _ _) hi)

/-- Output of the kernel at the slot written for `(b, m, k)`. -/
theorem SpmmP.run_out_cell (P : SpmmP) (b m k : Nat)
    (hb : b < P.B) (hm : m < P.M) (hk : k < P.K) :
    P.run.out (b * P.M * P.K + m * P.K + k) = P.cellOut (b * P.M + m) k := by
  have hn : b * P.M + m < P.B * P.M := by
    have h1 : b * P.M + m < (b + 1) * P.M := by
      rw [Nat.succ_mul]
      omega
    exact lt_of_lt_of_le h1 (Nat.mul_le_mul_right _ hb)
  have hidx : b * P.M * P.K + m * P.K + k = (b * P.M + m) * P.K + k := by ring
  rw [SpmmP.run, hidx]
  exact (P.fold_inv (P.B * P.M)).2.1 (b * P.M + m) k hn hk

/-- arg_out of the kernel at the slot written for `(b, m, k)`. -/
theorem SpmmP.run_arg_cell (P : SpmmP) (b m k : Nat)
    (hb : b < P.B) (hm : m < P.M) (hk : k < P.K) :
    P.run.argOut (b * P.M * P.K + m * P.K + k) = P.cellArg (b * P.M + m) k := by
  have hn : b * P.M + m < P.B * P.M := by
    have h1 : b * P.M + m < (b + 1) * P.M := by
      rw [Nat.succ_mul]
      omega
    exact lt_of_lt_of_le h1 (Nat.mul_le_mul_right _ hb)
  have hidx : b * P.M * P.K + m * P.K + k = (b * P.M + m) * P.K + k := by ring
  rw [SpmmP.run, hidx]
  exact (P.fold_inv (P.B * P.M)).2.2.2.1 (b * P.M + m) k hn hk

/-- Iteration decoding: for `n = b*M + m` with `m < M`, the batch is `b` and
the row is `m`. -/
theorem iter_div (b m M : Nat) (hm : m < M) : (b * M + m) / M = b := by
  rcases Nat.eq_zero_or_pos M with h | h
  · omega
  · rw [Nat.mul_comm b M, Nat.mul_add_div h, Nat.div_eq_of_lt hm]
    omega

/-- Iteration decoding: row index. -/
theorem iter_mod (b m M : Nat) (hm : m < M) : (b * M + m) % M = m := by
  rw [Nat.mul_comm b M, Nat.mul_add_mod, Nat.mod_eq_of_lt hm]

/-- Membership in the entry loop's index range. -/
theorem mem_entryList {s t e : Int} : e ∈ entryList s t ↔ s ≤ e ∧ e < t := by
  constructor
  · intro he
    obtain ⟨j, hj, hje⟩ := List.mem_map.mp he
    have hjr := List.mem_range.mp hj
    omega
  · intro h
    exact List.mem_map.mpr ⟨(e - s).toNat, List.mem_range.mpr (by omega), by omega⟩

/-- The C++ `count > 0 ? count : 1` equals `max(count, 1)`. -/
theorem pos_or_one_eq_max (c : Int) : (if c > 0 then c else 1) = max c 1 := by
  by_cases h : c > 0
  · rw [if_pos h, max_eq_left (by omega)]
  · rw [if_neg h, max_eq_right (by omega)]

/-- The candidate equals the weighted contribution `weight(e) * dense[...]`,
where weight is the value tensor when present and 1 otherwise. -/
theorem cand_mkP (smax smin : Int) (rowptr col : Tensor) (valueOpt : Option Tensor)
    (mat : Tensor) (red : ReductionType) (b k : Nat) (e : Int) :
    (mkP smax smin rowptr col valueOpt mat red).cand b k e
      = wcontrib valueOpt mat col mat.size2 mat.size1 b k e := by
  cases valueOpt with
  | none => simp [SpmmP.cand, mkP, weightOf, optData, wcontrib]
  | some v => rfl

/-- The weighted contribution factors through the (col, weight) pair. -/
theorem wcontrib_eq_candPair (valueOpt : Option Tensor) (mat col : Tensor)
    (N K b k : Nat) (e : Int) :
    wcontrib valueOpt mat col N K b k e
      = candPair mat N K b k (col.data e, weightOf valueOpt e) := rfl

/-! ## Wrapper unfolding -/

/-- When the device, dim, and allocation checks pass and the reduction token is
recognized, `spmm` returns the kernel result (arg_out present iff MIN/MAX). -/
theorem spmm_eq_ok (smax smin : Int) (rowptr col : Tensor) (valueOpt : Option Tensor)
    (mat : Tensor) (tok : String) (red : ReductionType)
    (hcpu : rowptr.is_cuda = false ∧ col.is_cuda = false ∧ optIsCUDA valueOpt = false
      ∧ mat.is_cuda = false)
    (hdim : rowptr.dim = 1 ∧ col.dim = 1 ∧ optDim1 valueOpt = true ∧ 2 ≤ mat.dim)
    (hnum : rowptr.numel ≠ 0)
    (hred : reduce2REDUCE tok = some red) :
    spmm smax smin rowptr col valueOpt mat tok
      = .ok ((mkP smax smin rowptr col valueOpt mat red).run.out,
          if red = .MIN ∨ red = .MAX
          then some ((mkP smax smin rowptr col valueOpt mat red).run.argOut)
          else none) := by
  unfold spmm
  rw [if_neg (by simp [hcpu.1, hcpu.2.1, hcpu.2.2.1, hcpu.2.2.2])]
  rw [if_neg (by push_neg; exact hdim)]
  rw [if_neg hnum, hred]

/-- When the device and rank checks pass and the reduction token is recognized,
`spmm_val_bw` returns the kernel result — no further (shape) validation exists. -/
theorem spmm_val_bw_eq_ok (row rowptr col mat grad : Tensor) (tok : String)
    (red : ReductionType)
    (hcpu : row.is_cuda = false ∧ rowptr.is_cuda = false ∧ col.is_cuda = false
      ∧ mat.is_cuda = false ∧ grad.is_cuda = false)
    (hdim : 2 ≤ mat.dim ∧ 2 ≤ grad.dim)
    (hred : reduce2REDUCE tok = some red) :
    spmm_val_bw row rowptr col mat grad tok
      = .ok (mkBwP row rowptr col mat grad red).run := by
  unfold spmm_val_bw
  rw [if_neg (by simp [hcpu.1, hcpu.2.1, hcpu.2.2.1, hcpu.2.2.2.1, hcpu.2.2.2.2])]
  rw [if_neg (by push_neg; exact hdim)]
  rw [hred]

/-- A token that is none of the five recognized names is absent from the map. -/
theorem reduce2REDUCE_none (tok : String) (h1 : tok ≠ "sum") (h2 : tok ≠ "add")
    (h3 : tok ≠ "mean") (h4 : tok ≠ "min") (h5 : tok ≠ "max") :
    reduce2REDUCE tok = none := by
  unfold reduce2REDUCE
  rw [if_neg h1, if_neg h2, if_neg h3, if_neg h4, if_neg h5]

/-! ## Backward kernel closed form -/

/-- One pass of the backward entry loop adds `f e` to slot `e` for `e < n`. -/
theorem bw_inner_loop (f : Nat → Int) (n : Nat) (buf : Nat → Int) (i : Nat) :
    ((List.range n).foldl (fun b2 e => updN b2 e (b2 e + f e)) buf) i
      = buf i + if i < n then f i else 0 := by
  induction n with
  | zero => simp
  | succ n ih =>
    rw [List.range_succ, List.foldl_append, List.foldl_cons, List.foldl_nil]
    have hupd : ∀ (X : Nat → Int) (y : Int), updN X n y i = if i = n then y else X i :=
      fun X y => rfl
    rw [hupd]
    clear hupd
    by_cases hi : i = n
    · rw [if_pos hi]
      subst hi
      rw [ih, if_neg (lt_irrefl _), if_pos (Nat.lt_succ_self _)]
      ring
    · rw [if_neg hi, ih]
      by_cases hc : i < n
      · rw [if_pos hc, if_pos (Nat.lt_succ_of_lt hc)]
      · rw [if_neg hc,
            if_neg (fun h => hc (lt_of_le_of_ne (Nat.le_of_lt_succ h) hi))]

/-- The outer batch loop of the backward kernel, for an arbitrary number of
batches. -/
theorem bw_outer_loop (P : BwP) (nb : Nat) (i : Nat) :
    ((List.range nb).foldl
        (fun buf b => (List.range P.E).foldl
          (fun buf2 e => updN buf2 e (buf2 e + P.entryVal b e)) buf)
        (fun _ => 0)) i
      = if i < P.E then ((List.range nb).map (fun b => P.entryVal b i)).sum else 0 := by
  induction nb with
  | zero => simp
  | succ nb ih =>
    rw [List.range_succ, List.foldl_append, List.foldl_cons, List.foldl_nil]
    rw [bw_inner_loop, ih]
    rw [List.map_append, List.sum_append]
    by_cases hc : i < P.E
    · rw [if_pos hc, if_pos hc, if_pos hc]
      simp
    · rw [if_neg hc, if_neg hc, if_neg hc]
      ring

/-- The backward kernel's output: slot `e < E` accumulates the per-batch entry
values; slots at or beyond `E` stay zero-initialized. -/
theorem BwP.run_apply (P : BwP) (i : Nat) :
    P.run i = if i < P.E then ((List.range P.B).map (fun b => P.entryVal b i)).sum
              else 0 :=
  bw_outer_loop P P.B i

/-! ## Per-reduction cell closed forms -/

/-- Value component of the row loop at a feature `k < K`. -/
theorem SpmmP.rowLoop_fst (P : SpmmP) (b : Nat) (a0 : Nat → Int) (s t : Int)
    (k : Nat) (hk : k < P.K) :
    (P.rowLoop b a0 s t).1 k
      = (rowFold P.red (P.cand b k) (entryList s t)
          (Reducer.init P.red P.smax P.smin, a0 k)).1 :=
  congrArg Prod.fst (P.rowLoop_pt b a0 s t k hk)

/-- Argument component of the row loop at a feature `k < K`. -/
theorem SpmmP.rowLoop_snd (P : SpmmP) (b : Nat) (a0 : Nat → Int) (s t : Int)
    (k : Nat) (hk : k < P.K) :
    (P.rowLoop b a0 s t).2 k
      = (rowFold P.red (P.cand b k) (entryList s t)
          (Reducer.init P.red P.smax P.smin, a0 k)).2 :=
  congrArg Prod.snd (P.rowLoop_pt b a0 s t k hk)

/-- SUM: the cell value is the plain sum of the row's candidates. -/
theorem SpmmP.cellOut_sum (P : SpmmP) (hred : P.red = .SUM) (b m k : Nat)
    (hm : m < P.M) (hk : k < P.K) :
    P.cellOut (b * P.M + m) k
      = ((entryList (P.rowptrD ((m : Nat))) (P.rowptrD ((m + 1 : Nat)))).map
          (P.cand b k)).sum := by
  have hdiv := iter_div b m P.M hm
  have hmod := iter_mod b m P.M hm
  simp only [SpmmP.cellOut, SpmmP.rowAt, SpmmP.cnt, hdiv, hmod]
  rw [P.rowLoop_fst b (P.argsAt (b * P.M + m))
    (P.rowptrD ((m : Nat))) (P.rowptrD ((m + 1 : Nat))) k hk]
  rw [hred, rowFold_sum .SUM (Or.inl rfl)]
  simp [Reducer.write, Reducer.init]

/-- MEAN: the cell value is the truncated quotient of the row sum by
`max(count, 1)`. -/
theorem SpmmP.cellOut_mean (P : SpmmP) (hred : P.red = .MEAN) (b m k : Nat)
    (hm : m < P.M) (hk : k < P.K) :
    P.cellOut (b * P.M + m) k
      = Int.tdiv
          ((entryList (P.rowptrD ((m : Nat))) (P.rowptrD ((m + 1 : Nat)))).map
            (P.cand b k)).sum
          (max (P.rowptrD ((m + 1 : Nat)) - P.rowptrD ((m : Nat))) 1) := by
  have hdiv := iter_div b m P.M hm
  have hmod := iter_mod b m P.M hm
  simp only [SpmmP.cellOut, SpmmP.rowAt, SpmmP.cnt, hdiv, hmod]
  rw [P.rowLoop_fst b (P.argsAt (b * P.M + m))
    (P.rowptrD ((m : Nat))) (P.rowptrD ((m + 1 : Nat))) k hk]
  rw [hred, rowFold_sum .MEAN (Or.inr rfl)]
  simp only [Reducer.write, Reducer.init, pos_or_one_eq_max]
  rw [zero_add]

/-- MIN/MAX on an empty (or malformed, `row_end ≤ row_start`) row: the output
cell is filled with 0 and the arg cell keeps its sentinel `E`. -/
theorem SpmmP.cell_minmax_empty (P : SpmmP) (hred : P.red = .MIN ∨ P.red = .MAX)
    (b m k : Nat) (hm : m < P.M) (_hk : k < P.K)
    (hle : P.rowptrD ((m + 1 : Nat)) ≤ P.rowptrD ((m : Nat))) :
    P.cellOut (b * P.M + m) k = 0 ∧ P.cellArg (b * P.M + m) k = (P.E : Int) := by
  have hdiv := iter_div b m P.M hm
  have hmod := iter_mod b m P.M hm
  have hc : ¬ (P.rowptrD ((m + 1 : Nat)) - P.rowptrD ((m : Nat)) > 0) := by omega
  constructor
  · simp only [SpmmP.cellOut, SpmmP.rowAt, SpmmP.cnt, hdiv, hmod]
    rcases hred with h | h <;> rw [h] <;> simp only [Reducer.write] <;>
      rw [if_neg hc]
  · simp only [SpmmP.cellArg, SpmmP.rowAt, SpmmP.cnt, hdiv, hmod]
    rcases hred with h | h <;> rw [h] <;> simp only [Reducer.write] <;>
      rw [if_neg hc]

/-- MIN on a nonempty row containing a candidate strictly below the
`numeric_limits::max` initializer: the written argument is a row entry
attaining the written value, no candidate is strictly smaller, and the
argument is the first entry attaining the value. -/
theorem SpmmP.cell_min_char (P : SpmmP) (hred : P.red = .MIN) (b m k : Nat)
    (hm : m < P.M) (hk : k < P.K)
    (hpos : P.rowptrD ((m : Nat)) < P.rowptrD ((m + 1 : Nat)))
    (hex : ∃ e ∈ entryList (P.rowptrD ((m : Nat))) (P.rowptrD ((m + 1 : Nat))),
      P.cand b k e < P.smax) :
    P.cellArg (b * P.M + m) k
        ∈ entryList (P.rowptrD ((m : Nat))) (P.rowptrD ((m + 1 : Nat)))
    ∧ P.cand b k (P.cellArg (b * P.M + m) k) = P.cellOut (b * P.M + m) k
    ∧ (∀ e ∈ entryList (P.rowptrD ((m : Nat))) (P.rowptrD ((m + 1 : Nat))),
        ¬ P.cand b k e < P.cellOut (b * P.M + m) k)
    ∧ (entryList (P.rowptrD ((m : Nat))) (P.rowptrD ((m + 1 : Nat)))).find?
          (fun e => decide (P.cand b k e = P.cellOut (b * P.M + m) k))
        = some (P.cellArg (b * P.M + m) k) := by
  have hdiv := iter_div b m P.M hm
  have hmod := iter_mod b m P.M hm
  simp only [SpmmP.cellOut, SpmmP.cellArg, SpmmP.rowAt, SpmmP.cnt, hdiv, hmod]
  have hc : P.rowptrD ((m + 1 : Nat)) - P.rowptrD ((m : Nat)) > 0 := by omega
  rw [hred]
  simp only [Reducer.write, if_pos hc]
  rw [P.rowLoop_fst b (P.argsAt (b * P.M + m))
    (P.rowptrD ((m : Nat))) (P.rowptrD ((m + 1 : Nat))) k hk,
    P.rowLoop_snd b (P.argsAt (b * P.M + m))
    (P.rowptrD ((m : Nat))) (P.rowptrD ((m + 1 : Nat))) k hk]
  rw [hred]
  rw [show Reducer.init .MIN P.smax P.smin = P.smax from rfl]
  obtain ⟨hmem, heq, hfind⟩ := rowFold_min_argchar (P.cand b k)
    (entryList (P.rowptrD ((m : Nat))) (P.rowptrD ((m + 1 : Nat))))
    P.smax (P.argsAt (b * P.M + m) k) hex
  refine ⟨hmem, heq, ?_, hfind⟩
  intro e he
  rw [rowFold_min_fst]
  intro hlt
  have hle2 := foldl_min_le_mem (P.cand b k)
    (entryList (P.rowptrD ((m : Nat))) (P.rowptrD ((m + 1 : Nat)))) P.smax e he
  omega

/-- MAX dual of `cell_min_char`. -/
theorem SpmmP.cell_max_char (P : SpmmP) (hred : P.red = .MAX) (b m k : Nat)
    (hm : m < P.M) (hk : k < P.K)
    (hpos : P.rowptrD ((m : Nat)) < P.rowptrD ((m + 1 : Nat)))
    (hex : ∃ e ∈ entryList (P.rowptrD ((m : Nat))) (P.rowptrD ((m + 1 : Nat))),
      P.cand b k e > P.smin) :
    P.cellArg (b * P.M + m) k
        ∈ entryList (P.rowptrD ((m : Nat))) (P.rowptrD ((m + 1 : Nat)))
    ∧ P.cand b k (P.cellArg (b * P.M + m) k) = P.cellOut (b * P.M + m) k
    ∧ (∀ e ∈ entryList (P.rowptrD ((m : Nat))) (P.rowptrD ((m + 1 : Nat))),
        ¬ P.cand b k e > P.cellOut (b * P.M + m) k)
    ∧ (entryList (P.rowptrD ((m : Nat))) (P.rowptrD ((m + 1 : Nat)))).find?
          (fun e => decide (P.cand b k e = P.cellOut (b * P.M + m) k))
        = some (P.cellArg (b * P.M + m) k) := by
  have hdiv := iter_div b m P.M hm
  have hmod := iter_mod b m P.M hm
  simp only [SpmmP.cellOut, SpmmP.cellArg, SpmmP.rowAt, SpmmP.cnt, hdiv, hmod]
  have hc : P.rowptrD ((m + 1 : Nat)) - P.rowptrD ((m : Nat)) > 0 := by omega
  rw [hred]
  simp only [Reducer.write, if_pos hc]
  rw [P.rowLoop_fst b (P.argsAt (b * P.M + m))
    (P.rowptrD ((m : Nat))) (P.rowptrD ((m + 1 : Nat))) k hk,
    P.rowLoop_snd b (P.argsAt (b * P.M + m))
    (P.rowptrD ((m : Nat))) (P.rowptrD ((m + 1 : Nat))) k hk]
  rw [hred]
  rw [show Reducer.init .MAX P.smax P.smin = P.smin from rfl]
  obtain ⟨hmem, heq, hfind⟩ := rowFold_max_argchar (P.cand b k)
    (entryList (P.rowptrD ((m : Nat))) (P.rowptrD ((m + 1 : Nat))))
    P.smin (P.argsAt (b * P.M + m) k) hex
  refine ⟨hmem, heq, ?_, hfind⟩
  intro e he
  rw [rowFold_max_fst]
  intro hlt
  have hle2 := foldl_max_ge_mem (P.cand b k)
    (entryList (P.rowptrD ((m : Nat))) (P.rowptrD ((m + 1 : Nat)))) P.smin e he
  omega

/-- MIN/MAX cell value in extremum form: the fold of min/max over the mapped
candidate list (starting at the init sentinel), or the 0 fill for empty rows. -/
theorem SpmmP.cellOut_minmax_val (P : SpmmP) (hred : P.red = .MIN ∨ P.red = .MAX)
    (b m k : Nat) (hm : m < P.M) (hk : k < P.K) :
    P.cellOut (b * P.M + m) k
      = if P.rowptrD ((m : Nat)) < P.rowptrD ((m + 1 : Nat)) then
          (if P.red = .MIN
           then ((entryList (P.rowptrD ((m : Nat))) (P.rowptrD ((m + 1 : Nat)))).map
              (P.cand b k)).foldl min P.smax
           else ((entryList (P.rowptrD ((m : Nat))) (P.rowptrD ((m + 1 : Nat)))).map
              (P.cand b k)).foldl max P.smin)
        else 0 := by
  have hdiv := iter_div b m P.M hm
  have hmod := iter_mod b m P.M hm
  by_cases hpos : P.rowptrD ((m : Nat)) < P.rowptrD ((m + 1 : Nat))
  · rw [if_pos hpos]
    have hc : P.rowptrD ((m + 1 : Nat)) - P.rowptrD ((m : Nat)) > 0 := by omega
    simp only [SpmmP.cellOut, SpmmP.rowAt, SpmmP.cnt, hdiv, hmod]
    rw [P.rowLoop_fst b (P.argsAt (b * P.M + m))
      (P.rowptrD ((m : Nat))) (P.rowptrD ((m + 1 : Nat))) k hk]
    rcases hred with h | h
    · rw [h]
      simp only [Reducer.write, if_pos hc]
      rw [if_pos trivial, rowFold_min_fst, List.foldl_map]
      rfl
    · rw [h]
      simp only [Reducer.write, if_pos hc]
      rw [if_neg (by simp), rowFold_max_fst, List.foldl_map]
      rfl
  · rw [if_neg hpos]
    exact (P.cell_minmax_empty hred b m k hm hk (by omega)).1

/-- `List.foldl min` is invariant under permutations of the list. -/
theorem foldl_min_perm {l1 l2 : List Int} (hp : l1.Perm l2) (v0 : Int) :
    l1.foldl min v0 = l2.foldl min v0 :=
  hp.foldl_eq v0

/-- `List.foldl max` is invariant under permutations of the list. -/
theorem foldl_max_perm {l1 l2 : List Int} (hp : l1.Perm l2) (v0 : Int) :
    l1.foldl max v0 = l2.foldl max v0 :=
  hp.foldl_eq v0

/-! ## Claim theorems -/

/-- C7: for every identical input, calling spmm with reduction token "sum" and
with reduction token "add" produces identical outputs (both map to the SUM
reduction in reduce2REDUCE). -/
theorem C7_sum_add_synonyms (smax smin : Int) (rowptr col : Tensor)
    (valueOpt : Option Tensor) (mat : Tensor) :
    spmm smax smin rowptr col valueOpt mat "sum"
      = spmm smax smin rowptr col valueOpt mat "add" := rfl

/-- C9: for the reduction tokens "sum", "add", "min", "max", the output of
spmm_val_bw does not depend on the contents of the rowptr argument: two
invocations differing only in rowptr's data produce equal results, since
rowptr is read only under the MEAN normalization branch. -/
theorem C9_bw_rowptr_irrelevant_non_mean (row col mat grad : Tensor)
    (sz : List Nat) (d1 d2 : Int → Int) (cu : Bool) (tok : String)
    (htok : tok = "sum" ∨ tok = "add" ∨ tok = "min" ∨ tok = "max") :
    spmm_val_bw row ⟨sz, d1, cu⟩ col mat grad tok
      = spmm_val_bw row ⟨sz, d2, cu⟩ col mat grad tok := by
  rcases htok with rfl | rfl | rfl | rfl <;> rfl

/-- Witness for C9 at concrete inputs: two different rowptr contents, reduction
"max", equal gradients. -/
theorem C9_witness :
    spmm_val_bw rwB ⟨[3], listData [0, 2, 2], false⟩ clB mtB gdB "max"
      = spmm_val_bw rwB ⟨[3], listData [7, 9, 11], false⟩ clB mtB gdB "max" :=
  C9_bw_rowptr_irrelevant_non_mean rwB clB mtB gdB [3]
    (listData [0, 2, 2]) (listData [7, 9, 11]) false "max"
    (Or.inr (Or.inr (Or.inr rfl)))

/-- C5: for every reduction token other than "sum", "add", "mean", "min",
"max", both spmm and spmm_val_bw raise the unknown-reduction error (the
std::map::at lookup throws) and never fall back to a default reduction. -/
theorem C5_unknown_reduction_errors (smax smin : Int) (rowptr col : Tensor)
    (valueOpt : Option Tensor) (mat : Tensor)
    (row rowptr2 col2 mat2 grad : Tensor) (tok : String)
    (h1 : tok ≠ "sum") (h2 : tok ≠ "add") (h3 : tok ≠ "mean")
    (h4 : tok ≠ "min") (h5 : tok ≠ "max")
    (hcpu : rowptr.is_cuda = false ∧ col.is_cuda = false
      ∧ optIsCUDA valueOpt = false ∧ mat.is_cuda = false)
    (hdim : rowptr.dim = 1 ∧ col.dim = 1 ∧ optDim1 valueOpt = true ∧ 2 ≤ mat.dim)
    (hnum : rowptr.numel ≠ 0)
    (hcpu2 : row.is_cuda = false ∧ rowptr2.is_cuda = false ∧ col2.is_cuda = false
      ∧ mat2.is_cuda = false ∧ grad.is_cuda = false)
    (hdim2 : 2 ≤ mat2.dim ∧ 2 ≤ grad.dim) :
    spmm smax smin rowptr col valueOpt mat tok = .error .unknownReduce
    ∧ spmm_val_bw row rowptr2 col2 mat2 grad tok = .error .unknownReduce := by
  have hnone := reduce2REDUCE_none tok h1 h2 h3 h4 h5
  constructor
  · unfold spmm
    rw [if_neg (by simp [hcpu.1, hcpu.2.1, hcpu.2.2.1, hcpu.2.2.2])]
    rw [if_neg (by push_neg; exact hdim)]
    rw [if_neg hnum, hnone]
  · unfold spmm_val_bw
    rw [if_neg (by simp [hcpu2.1, hcpu2.2.1, hcpu2.2.2.1, hcpu2.2.2.2.1,
      hcpu2.2.2.2.2])]
    rw [if_neg (by push_neg; exact hdim2)]
    rw [hnone]

/-- Witness for C5 at the concrete token "avg" on scenario A inputs. -/
theorem C5_witness :
    spmm i64max i64min rpA clA (some vlA) mtA "avg" = .error .unknownReduce
    ∧ spmm_val_bw rwA rpA clA mtA gdA "avg" = .error .unknownReduce :=
  C5_unknown_reduction_errors i64max i64min rpA clA (some vlA) mtA
    rwA rpA clA mtA gdA "avg"
    (by decide) (by decide) (by decide) (by decide) (by decide)
    (by decide) (by decide) (by decide) (by decide) (by decide)

/-- C6 counterexample: spmm_val_bw does not reject shape mismatches.  Here
`col` has 1 element while `row` has E = 2 entries (an inconsistent E), yet the
call returns a computed gradient buffer instead of an error. -/
theorem C6_counterexample :
    clE.numel ≠ rwE.numel
    ∧ ∃ p, spmm_val_bw rwE rpE clE mtE gdE "sum" = Except.ok p := by
  constructor
  · decide
  · exact ⟨_, rfl⟩

/-- C6 amended: spmm_val_bw performs no shape validation.  Whenever all five
tensors are CPU, mat and grad have rank ≥ 2 (so `size(-2)` is legal), and the
reduction token is recognized, the call returns a computed buffer — regardless
of any cross-buffer shape inconsistency among row, rowptr, col, dense, grad. -/
theorem C6_amended_no_shape_checks (row rowptr col mat grad : Tensor)
    (tok : String) (red : ReductionType)
    (hcpu : row.is_cuda = false ∧ rowptr.is_cuda = false ∧ col.is_cuda = false
      ∧ mat.is_cuda = false ∧ grad.is_cuda = false)
    (hdim : 2 ≤ mat.dim ∧ 2 ≤ grad.dim)
    (hred : reduce2REDUCE tok = some red) :
    ∃ p, spmm_val_bw row rowptr col mat grad tok = Except.ok p :=
  ⟨_, spmm_val_bw_eq_ok row rowptr col mat grad tok red hcpu hdim hred⟩

/-- Witness for the amended C6 at the mismatched scenario E input. -/
theorem C6_witness :
    ∃ p, spmm_val_bw rwE rpE clE mtE gdE "sum" = Except.ok p :=
  C6_amended_no_shape_checks rwE rpE clE mtE gdE "sum" .SUM
    (by decide) (by decide) rfl

/-- Empty entry range for `row_end ≤ row_start`. -/
theorem entryList_nil {s t : Int} (h : t ≤ s) : entryList s t = [] := by
  unfold entryList
  rw [show (t - s).toNat = 0 by omega]
  rfl

/-- spmm output slot under a SUM-mapped token: the row's weighted sum. -/
theorem spmm_out_SUM (smax smin : Int) (rowptr col : Tensor) (valueOpt : Option Tensor)
    (mat : Tensor) (tok : String) (b m k : Nat)
    (hred : reduce2REDUCE tok = some .SUM)
    (hcpu : rowptr.is_cuda = false ∧ col.is_cuda = false
      ∧ optIsCUDA valueOpt = false ∧ mat.is_cuda = false)
    (hdim : rowptr.dim = 1 ∧ col.dim = 1 ∧ optDim1 valueOpt = true ∧ 2 ≤ mat.dim)
    (hnum : rowptr.numel ≠ 0)
    (hb : b < mat.numel / (mat.size2 * mat.size1))
    (hm : m < rowptr.numel - 1) (hk : k < mat.size1) :
    spmmOutAt (spmm smax smin rowptr col valueOpt mat tok)
        (b * (rowptr.numel - 1) * mat.size1 + m * mat.size1 + k)
      = some (((rowEntries rowptr m).map
          (wcontrib valueOpt mat col mat.size2 mat.size1 b k)).sum) := by
  rw [spmm_eq_ok smax smin rowptr col valueOpt mat tok .SUM hcpu hdim hnum hred]
  show some ((mkP smax smin rowptr col valueOpt mat .SUM).run.out
      (b * (mkP smax smin rowptr col valueOpt mat .SUM).M
          * (mkP smax smin rowptr col valueOpt mat .SUM).K
        + m * (mkP smax smin rowptr col valueOpt mat .SUM).K + k)) = _
  rw [(mkP smax smin rowptr col valueOpt mat .SUM).run_out_cell b m k hb hm hk]
  rw [(mkP smax smin rowptr col valueOpt mat .SUM).cellOut_sum rfl b m k hm hk]
  congr 1
  rw [show (mkP smax smin rowptr col valueOpt mat .SUM).cand b k
      = wcontrib valueOpt mat col mat.size2 mat.size1 b k
    from funext fun e => cand_mkP smax smin rowptr col valueOpt mat .SUM b k e]
  rfl

/-- spmm output slot under the MEAN token: the truncated quotient of the row's
weighted sum by `max(count, 1)`. -/
theorem spmm_out_MEAN (smax smin : Int) (rowptr col : Tensor) (valueOpt : Option Tensor)
    (mat : Tensor) (b m k : Nat)
    (hcpu : rowptr.is_cuda = false ∧ col.is_cuda = false
      ∧ optIsCUDA valueOpt = false ∧ mat.is_cuda = false)
    (hdim : rowptr.dim = 1 ∧ col.dim = 1 ∧ optDim1 valueOpt = true ∧ 2 ≤ mat.dim)
    (hnum : rowptr.numel ≠ 0)
    (hb : b < mat.numel / (mat.size2 * mat.size1))
    (hm : m < rowptr.numel - 1) (hk : k < mat.size1) :
    spmmOutAt (spmm smax smin rowptr col valueOpt mat "mean")
        (b * (rowptr.numel - 1) * mat.size1 + m * mat.size1 + k)
      = some (Int.tdiv
          (((rowEntries rowptr m).map
            (wcontrib valueOpt mat col mat.size2 mat.size1 b k)).sum)
          (max (rowptr.data ((m + 1 : Nat)) - rowptr.data ((m : Nat))) 1)) := by
  rw [spmm_eq_ok smax smin rowptr col valueOpt mat "mean" .MEAN hcpu hdim hnum rfl]
  show some ((mkP smax smin rowptr col valueOpt mat .MEAN).run.out
      (b * (mkP smax smin rowptr col valueOpt mat .MEAN).M
          * (mkP smax smin rowptr col valueOpt mat .MEAN).K
        + m * (mkP smax smin rowptr col valueOpt mat .MEAN).K + k)) = _
  rw [(mkP smax smin rowptr col valueOpt mat .MEAN).run_out_cell b m k hb hm hk]
  rw [(mkP smax smin rowptr col valueOpt mat .MEAN).cellOut_mean rfl b m k hm hk]
  congr 1
  rw [show (mkP smax smin rowptr col valueOpt mat .MEAN).cand b k
      = wcontrib valueOpt mat col mat.size2 mat.size1 b k
    from funext fun e => cand_mkP smax smin rowptr col valueOpt mat .MEAN b k e]
  rfl

/-- C1: for spmm with reduction "sum" (or "add"), every output slot
out[b,m,k] is the sum over the entries of row m of
weight(e) * dense[b, col[e], k]; empty rows yield the empty sum 0. -/
theorem C1_spmm_sum_row_sums (smax smin : Int) (rowptr col : Tensor)
    (valueOpt : Option Tensor) (mat : Tensor) (tok : String)
    (M N K B b m k : Nat)
    (htok : tok = "sum" ∨ tok = "add")
    (hcpu : rowptr.is_cuda = false ∧ col.is_cuda = false
      ∧ optIsCUDA valueOpt = false ∧ mat.is_cuda = false)
    (hdim : rowptr.dim = 1 ∧ col.dim = 1 ∧ optDim1 valueOpt = true ∧ 2 ≤ mat.dim)
    (hnum : rowptr.numel ≠ 0)
    (hM : M = rowptr.numel - 1) (hN : N = mat.size2) (hK : K = mat.size1)
    (hB : B = mat.numel / (N * K))
    (hb : b < B) (hm : m < M) (hk : k < K) :
    spmmOutAt (spmm smax smin rowptr col valueOpt mat tok) (b * M * K + m * K + k)
      = some (((rowEntries rowptr m).map (wcontrib valueOpt mat col N K b k)).sum) := by
  subst hM hN hK hB
  have hred : reduce2REDUCE tok = some .SUM := by
    rcases htok with rfl | rfl <;> rfl
  exact spmm_out_SUM smax smin rowptr col valueOpt mat tok b m k hred hcpu hdim hnum
    hb hm hk

/-- Witness for C1 at the spec's concrete scenario A: row 0 of the "sum"
output is 1*5 + 2*7 = 19. -/
theorem C1_witness :
    spmmOutAt (spmm i64max i64min rpA clA (some vlA) mtA "sum") 0 = some 19 :=
  (C1_spmm_sum_row_sums i64max i64min rpA clA (some vlA) mtA "sum" 2 2 1 1 0 0 0
    (Or.inl rfl) (by decide) (by decide) (by decide) (by decide) (by decide)
    (by decide) (by decide) (by decide) (by decide) (by decide)).trans (by decide)

/-- C2: for spmm with reduction "mean", every output slot equals the
Sum-reduction result of the same row divided (C++ integral division) by
max(row degree, 1); rows of degree 0 yield exactly 0. -/
theorem C2_spmm_mean_normalization (smax smin : Int) (rowptr col : Tensor)
    (valueOpt : Option Tensor) (mat : Tensor)
    (M N K B b m k : Nat)
    (hcpu : rowptr.is_cuda = false ∧ col.is_cuda = false
      ∧ optIsCUDA valueOpt = false ∧ mat.is_cuda = false)
    (hdim : rowptr.dim = 1 ∧ col.dim = 1 ∧ optDim1 valueOpt = true ∧ 2 ≤ mat.dim)
    (hnum : rowptr.numel ≠ 0)
    (hM : M = rowptr.numel - 1) (hN : N = mat.size2) (hK : K = mat.size1)
    (hB : B = mat.numel / (N * K))
    (hb : b < B) (hm : m < M) (hk : k < K) :
    ∃ S : Int,
      spmmOutAt (spmm smax smin rowptr col valueOpt mat "sum")
          (b * M * K + m * K + k) = some S
      ∧ spmmOutAt (spmm smax smin rowptr col valueOpt mat "mean")
          (b * M * K + m * K + k)
          = some (Int.tdiv S
              (max (rowptr.data ((m + 1 : Nat)) - rowptr.data ((m : Nat))) 1))
      ∧ (rowptr.data ((m + 1 : Nat)) ≤ rowptr.data ((m : Nat)) →
          spmmOutAt (spmm smax smin rowptr col valueOpt mat "mean")
            (b * M * K + m * K + k) = some 0) := by
  subst hM hN hK hB
  refine ⟨((rowEntries rowptr m).map
      (wcontrib valueOpt mat col mat.size2 mat.size1 b k)).sum,
    spmm_out_SUM smax smin rowptr col valueOpt mat "sum" b m k rfl hcpu hdim hnum
      hb hm hk,
    spmm_out_MEAN smax smin rowptr col valueOpt mat b m k hcpu hdim hnum hb hm hk,
    ?_⟩
  intro hle
  rw [spmm_out_MEAN smax smin rowptr col valueOpt mat b m k hcpu hdim hnum hb hm hk]
  rw [show rowEntries rowptr m = [] from entryList_nil hle]
  simp

/-- Witness for C2 at scenario A: the "mean" output of row 0 is
tdiv(19, 2) = 9. -/
theorem C2_witness :
    ∃ S : Int,
      spmmOutAt (spmm i64max i64min rpA clA (some vlA) mtA "sum") 0 = some S
      ∧ spmmOutAt (spmm i64max i64min rpA clA (some vlA) mtA "mean") 0
          = some (Int.tdiv S (max (rpA.data ((0 + 1 : Nat)) - rpA.data ((0 : Nat))) 1))
      ∧ (rpA.data ((0 + 1 : Nat)) ≤ rpA.data ((0 : Nat)) →
          spmmOutAt (spmm i64max i64min rpA clA (some vlA) mtA "mean") 0 = some 0) :=
  C2_spmm_mean_normalization i64max i64min rpA clA (some vlA) mtA 2 2 1 1 0 0 0
    (by decide) (by decide) (by decide) (by decide) (by decide) (by decide)
    (by decide) (by decide) (by decide) (by decide)

/-- The per-(batch, entry) contribution in closed form: the feature dot
product, normalized by `max(row degree, 1)` under MEAN. -/
theorem BwP.entryVal_eq (P : BwP) (b e : Nat) :
    P.entryVal b e
      = if P.red = .MEAN
        then Int.tdiv
            (((List.range P.K).map (fun k =>
              P.matD ((b * (P.N * P.K) : Nat) + P.colD ((e : Nat)) * (P.K : Nat) + (k : Nat))
              * P.gradD ((b * (P.M * P.K) : Nat) + P.rowD ((e : Nat)) * (P.K : Nat) + (k : Nat)))).sum)
            (max (P.rowptrD (P.rowD ((e : Nat)) + 1) - P.rowptrD (P.rowD ((e : Nat)))) 1)
        else ((List.range P.K).map (fun k =>
              P.matD ((b * (P.N * P.K) : Nat) + P.colD ((e : Nat)) * (P.K : Nat) + (k : Nat))
              * P.gradD ((b * (P.M * P.K) : Nat) + P.rowD ((e : Nat)) * (P.K : Nat) + (k : Nat)))).sum := by
  unfold BwP.entryVal BwP.dot
  rw [foldl_add_eq_sum, zero_add]

/-- spmm_val_bw output in closed form, for any recognized reduction token. -/
theorem bw_out_eq (row rowptr col mat grad : Tensor) (tok : String)
    (red : ReductionType) (hred : reduce2REDUCE tok = some red)
    (hcpu : row.is_cuda = false ∧ rowptr.is_cuda = false ∧ col.is_cuda = false
      ∧ mat.is_cuda = false ∧ grad.is_cuda = false)
    (hdim : 2 ≤ mat.dim ∧ 2 ≤ grad.dim) (i : Nat) :
    bwOutAt (spmm_val_bw row rowptr col mat grad tok) i
      = some (if i < row.numel
          then ((List.range (mat.numel / (mat.size2 * mat.size1))).map (fun b =>
            if red = .MEAN
            then Int.tdiv
                (((List.range mat.size1).map (fun k =>
                  mat.data ((b * (mat.size2 * mat.size1) : Nat)
                    + col.data ((i : Nat)) * (mat.size1 : Nat) + (k : Nat))
                  * grad.data ((b * (grad.size2 * mat.size1) : Nat)
                    + row.data ((i : Nat)) * (mat.size1 : Nat) + (k : Nat)))).sum)
                (max (rowptr.data (row.data ((i : Nat)) + 1)
                  - rowptr.data (row.data ((i : Nat)))) 1)
            else ((List.range mat.size1).map (fun k =>
                  mat.data ((b * (mat.size2 * mat.size1) : Nat)
                    + col.data ((i : Nat)) * (mat.size1 : Nat) + (k : Nat))
                  * grad.data ((b * (grad.size2 * mat.size1) : Nat)
                    + row.data ((i : Nat)) * (mat.size1 : Nat) + (k : Nat)))).sum)).sum
          else 0) := by
  rw [spmm_val_bw_eq_ok row rowptr col mat grad tok red hcpu hdim hred]
  show some ((mkBwP row rowptr col mat grad red).run i) = _
  rw [BwP.run_apply]
  congr 1
  rw [show (fun b => (mkBwP row rowptr col mat grad red).entryVal b i)
      = (fun b =>
          if red = .MEAN
          then Int.tdiv
              (((List.range mat.size1).map (fun k =>
                mat.data ((b * (mat.size2 * mat.size1) : Nat)
                  + col.data ((i : Nat)) * (mat.size1 : Nat) + (k : Nat))
                * grad.data ((b * (grad.size2 * mat.size1) : Nat)
                  + row.data ((i : Nat)) * (mat.size1 : Nat) + (k : Nat)))).sum)
              (max (rowptr.data (row.data ((i : Nat)) + 1)
                - rowptr.data (row.data ((i : Nat)))) 1)
          else ((List.range mat.size1).map (fun k =>
                mat.data ((b * (mat.size2 * mat.size1) : Nat)
                  + col.data ((i : Nat)) * (mat.size1 : Nat) + (k : Nat))
                * grad.data ((b * (grad.size2 * mat.size1) : Nat)
                  + row.data ((i : Nat)) * (mat.size1 : Nat) + (k : Nat)))).sum)
    from funext fun b => BwP.entryVal_eq (mkBwP row rowptr col mat grad red) b i]
  rfl

/-- C4: the spmm_val_bw gradient buffer has one slot per entry (slots at or
beyond E keep their zero initialization) and out[e] is the sum over batches of
the feature dot product dense[b,col[e],:] . grad[b,row[e],:], each batch's dot
product being divided by max(rowptr[row[e]+1]-rowptr[row[e]], 1) exactly when
the reduction is `mean`; contributions are accumulated over the
zero-initialized buffer, not assigned. -/
theorem C4_bw_value_gradient (row rowptr col mat grad : Tensor) (tok : String)
    (red : ReductionType) (E M N K B e : Nat)
    (hred : reduce2REDUCE tok = some red)
    (hcpu : row.is_cuda = false ∧ rowptr.is_cuda = false ∧ col.is_cuda = false
      ∧ mat.is_cuda = false ∧ grad.is_cuda = false)
    (hdim : 2 ≤ mat.dim ∧ 2 ≤ grad.dim)
    (hE : E = row.numel) (hM : M = grad.size2) (hN : N = mat.size2)
    (hK : K = mat.size1) (hB : B = mat.numel / (N * K)) (he : e < E) :
    bwOutAt (spmm_val_bw row rowptr col mat grad tok) e
      = some (((List.range B).map (fun b =>
          if red = .MEAN
          then Int.tdiv
              (((List.range K).map (fun k =>
                mat.data ((b * (N * K) : Nat) + col.data ((e : Nat)) * (K : Nat) + (k : Nat))
                * grad.data ((b * (M * K) : Nat) + row.data ((e : Nat)) * (K : Nat) + (k : Nat)))).sum)
              (max (rowptr.data (row.data ((e : Nat)) + 1)
                - rowptr.data (row.data ((e : Nat)))) 1)
          else ((List.range K).map (fun k =>
                mat.data ((b * (N * K) : Nat) + col.data ((e : Nat)) * (K : Nat) + (k : Nat))
                * grad.data ((b * (M * K) : Nat) + row.data ((e : Nat)) * (K : Nat) + (k : Nat)))).sum)).sum)
    ∧ (∀ i, E ≤ i → bwOutAt (spmm_val_bw row rowptr col mat grad tok) i = some 0) := by
  subst hE hM hN hK hB
  constructor
  · rw [bw_out_eq row rowptr col mat grad tok red hred hcpu hdim e, if_pos he]
  · intro i hi
    rw [bw_out_eq row rowptr col mat grad tok red hred hcpu hdim i,
      if_neg (by omega)]

/-- Witness for C4 at the scenario A backward inputs with reduction "sum":
entry 0 receives dense[col[0]] * grad[row[0]] = 5 * 10 = 50. -/
theorem C4_witness :
    bwOutAt (spmm_val_bw rwA rpA clA mtA gdA "sum") 0 = some 50 :=
  ((C4_bw_value_gradient rwA rpA clA mtA gdA "sum" .SUM 3 2 2 1 1 0 rfl
    (by decide) (by decide) (by decide) (by decide) (by decide) (by decide)
    (by decide) (by decide)).1).trans (by decide)

/-- C10: for integral scalar types, the MEAN normalizations in both kernels
are the C++ truncating integer division `Int.tdiv` (rounds toward zero): the
forward mean emits tdiv(row sum, max(degree,1)) and the backward mean emits
the sum over batches of tdiv(dot product, max(degree,1)), not the exact
rational mean. -/
theorem C10_mean_truncating_division (smax smin : Int) (rowptr col : Tensor)
    (valueOpt : Option Tensor) (mat : Tensor)
    (row2 rowptr2 col2 mat2 grad2 : Tensor)
    (M N K B b m k : Nat) (E2 M2 N2 K2 B2 e : Nat)
    (hcpu : rowptr.is_cuda = false ∧ col.is_cuda = false
      ∧ optIsCUDA valueOpt = false ∧ mat.is_cuda = false)
    (hdim : rowptr.dim = 1 ∧ col.dim = 1 ∧ optDim1 valueOpt = true ∧ 2 ≤ mat.dim)
    (hnum : rowptr.numel ≠ 0)
    (hM : M = rowptr.numel - 1) (hN : N = mat.size2) (hK : K = mat.size1)
    (hB : B = mat.numel / (N * K))
    (hb : b < B) (hm : m < M) (hk : k < K)
    (hcpu2 : row2.is_cuda = false ∧ rowptr2.is_cuda = false ∧ col2.is_cuda = false
      ∧ mat2.is_cuda = false ∧ grad2.is_cuda = false)
    (hdim2 : 2 ≤ mat2.dim ∧ 2 ≤ grad2.dim)
    (hE2 : E2 = row2.numel) (hM2 : M2 = grad2.size2) (hN2 : N2 = mat2.size2)
    (hK2 : K2 = mat2.size1) (hB2 : B2 = mat2.numel / (N2 * K2)) (he : e < E2) :
    spmmOutAt (spmm smax smin rowptr col valueOpt mat "mean") (b * M * K + m * K + k)
      = some (Int.tdiv
          (((rowEntries rowptr m).map (wcontrib valueOpt mat col N K b k)).sum)
          (max (rowptr.data ((m + 1 : Nat)) - rowptr.data ((m : Nat))) 1))
    ∧ bwOutAt (spmm_val_bw row2 rowptr2 col2 mat2 grad2 "mean") e
      = some (((List.range B2).map (fun b2 =>
          Int.tdiv
            (((List.range K2).map (fun k2 =>
              mat2.data ((b2 * (N2 * K2) : Nat) + col2.data ((e : Nat)) * (K2 : Nat) + (k2 : Nat))
              * grad2.data ((b2 * (M2 * K2) : Nat) + row2.data ((e : Nat)) * (K2 : Nat) + (k2 : Nat)))).sum)
            (max (rowptr2.data (row2.data ((e : Nat)) + 1)
              - rowptr2.data (row2.data ((e : Nat)))) 1))).sum) := by
  constructor
  · subst hM hN hK hB
    exact spmm_out_MEAN smax smin rowptr col valueOpt mat b m k hcpu hdim hnum hb hm hk
  · subst hE2 hM2 hN2 hK2 hB2
    rw [bw_out_eq row2 rowptr2 col2 mat2 grad2 "mean" .MEAN rfl hcpu2 hdim2 e,
      if_pos he]
    rfl

/-- Witness for C10 at scenario B: row 0 sums to -3 over degree 2, the forward
mean emits tdiv(-3,2) = -1 (truncation toward zero; flooring would give -2),
and the backward mean emits tdiv(-5,2) = -2 for entry 0. -/
theorem C10_witness :
    spmmOutAt (spmm i64max i64min rpB clB none mtB "mean") 0 = some (-1)
    ∧ bwOutAt (spmm_val_bw rwB rpB clB mtB gdB "mean") 0 = some (-2) := by
  have h := C10_mean_truncating_division i64max i64min rpB clB none mtB
    rwB rpB clB mtB gdB 2 2 1 1 0 0 0 2 2 2 1 1 0
    (by decide) (by decide) (by decide) (by decide) (by decide) (by decide)
    (by decide) (by decide) (by decide) (by decide) (by decide) (by decide)
    (by decide) (by decide) (by decide) (by decide) (by decide) (by decide)
  exact ⟨h.1.trans (by decide), h.2.trans (by decide)⟩

/-- C3 counterexample: with MIN reduction on int64 scalars (init sentinel
`numeric_limits<int64_t>::max() = 2^63-1`), a row whose only entry contributes
exactly the sentinel never triggers Reducer::update, so arg_out receives the
stale args contents from the previous row: here arg_out[0,1,0] = 0, which is
not an entry of row 1 = [rowptr[1], rowptr[2]) = [1,2). -/
theorem C3_counterexample :
    spmmOutAt (spmm i64max i64min rpC clC none mtC "min") 1 = some i64max
    ∧ spmmArgAt (spmm i64max i64min rpC clC none mtC "min") 1 = some 0
    ∧ (0 : Int) ∉ rowEntries rpC 1 :=
  ⟨by decide, by decide, by decide⟩

/-- C3 amended: for MIN/MAX, a row of degree 0 yields value 0 and the sentinel
index E; a row of positive degree yields, PROVIDED at least one of its entries
contributes strictly below numeric_limits::max (MIN) / strictly above
numeric_limits::lowest (MAX), an arg_out index that is an entry of the row
whose weighted contribution equals out[b,m,k], with no entry of the row
contributing strictly less (MIN) / more (MAX). -/
theorem C3_amended_minmax_argout (smax smin : Int) (rowptr col : Tensor)
    (valueOpt : Option Tensor) (mat : Tensor) (tok : String)
    (M N K B b m k : Nat)
    (htok : tok = "min" ∨ tok = "max")
    (hcpu : rowptr.is_cuda = false ∧ col.is_cuda = false
      ∧ optIsCUDA valueOpt = false ∧ mat.is_cuda = false)
    (hdim : rowptr.dim = 1 ∧ col.dim = 1 ∧ optDim1 valueOpt = true ∧ 2 ≤ mat.dim)
    (hnum : rowptr.numel ≠ 0)
    (hM : M = rowptr.numel - 1) (hN : N = mat.size2) (hK : K = mat.size1)
    (hB : B = mat.numel / (N * K))
    (hb : b < B) (hm : m < M) (hk : k < K) :
    (rowptr.data ((m + 1 : Nat)) ≤ rowptr.data ((m : Nat)) →
        spmmOutAt (spmm smax smin rowptr col valueOpt mat tok)
            (b * M * K + m * K + k) = some 0
        ∧ spmmArgAt (spmm smax smin rowptr col valueOpt mat tok)
            (b * M * K + m * K + k) = some (col.numel : Int))
    ∧ (rowptr.data ((m : Nat)) < rowptr.data ((m + 1 : Nat)) →
        (if tok = "min"
          then ∃ e ∈ rowEntries rowptr m, wcontrib valueOpt mat col N K b k e < smax
          else ∃ e ∈ rowEntries rowptr m, wcontrib valueOpt mat col N K b k e > smin) →
        ∃ a v,
          spmmArgAt (spmm smax smin rowptr col valueOpt mat tok)
              (b * M * K + m * K + k) = some a
          ∧ spmmOutAt (spmm smax smin rowptr col valueOpt mat tok)
              (b * M * K + m * K + k) = some v
          ∧ a ∈ rowEntries rowptr m
          ∧ wcontrib valueOpt mat col N K b k a = v
          ∧ ∀ e ∈ rowEntries rowptr m,
              if tok = "min" then ¬ wcontrib valueOpt mat col N K b k e < v
              else ¬ wcontrib valueOpt mat col N K b k e > v) := by
  subst hM hN hK hB
  have hc : ∀ red e, (mkP smax smin rowptr col valueOpt mat red).cand b k e
      = wcontrib valueOpt mat col mat.size2 mat.size1 b k e :=
    fun red e => cand_mkP smax smin rowptr col valueOpt mat red b k e
  rcases htok with rfl | rfl
  · rw [spmm_eq_ok smax smin rowptr col valueOpt mat "min" .MIN hcpu hdim hnum rfl]
    constructor
    · intro hle
      obtain ⟨h0, hE⟩ := (mkP smax smin rowptr col valueOpt mat .MIN).cell_minmax_empty
        (Or.inl rfl) b m k hm hk hle
      constructor
      · show some ((mkP smax smin rowptr col valueOpt mat .MIN).run.out
          (b * (mkP smax smin rowptr col valueOpt mat .MIN).M
              * (mkP smax smin rowptr col valueOpt mat .MIN).K
            + m * (mkP smax smin rowptr col valueOpt mat .MIN).K + k)) = some 0
        rw [(mkP smax smin rowptr col valueOpt mat .MIN).run_out_cell b m k hb hm hk, h0]
      · show some ((mkP smax smin rowptr col valueOpt mat .MIN).run.argOut
          (b * (mkP smax smin rowptr col valueOpt mat .MIN).M
              * (mkP smax smin rowptr col valueOpt mat .MIN).K
            + m * (mkP smax smin rowptr col valueOpt mat .MIN).K + k)) = _
        rw [(mkP smax smin rowptr col valueOpt mat .MIN).run_arg_cell b m k hb hm hk, hE]
        rfl
    · intro hpos hex
      rw [if_pos rfl] at hex
      have hex2 : ∃ e ∈ entryList
          ((mkP smax smin rowptr col valueOpt mat .MIN).rowptrD ((m : Nat)))
          ((mkP smax smin rowptr col valueOpt mat .MIN).rowptrD ((m + 1 : Nat))),
          (mkP smax smin rowptr col valueOpt mat .MIN).cand b k e
            < (mkP smax smin rowptr col valueOpt mat .MIN).smax := by
        obtain ⟨e, he, hlt⟩ := hex
        exact ⟨e, he, by rw [hc .MIN e]; exact hlt⟩
      obtain ⟨hmem, heq, hext, hfind⟩ :=
        (mkP smax smin rowptr col valueOpt mat .MIN).cell_min_char rfl b m k hm hk
          hpos hex2
      refine ⟨(mkP smax smin rowptr col valueOpt mat .MIN).cellArg
          (b * (mkP smax smin rowptr col valueOpt mat .MIN).M + m) k,
        (mkP smax smin rowptr col valueOpt mat .MIN).cellOut
          (b * (mkP smax smin rowptr col valueOpt mat .MIN).M + m) k,
        ?_, ?_, hmem, ?_, ?_⟩
      · show some ((mkP smax smin rowptr col valueOpt mat .MIN).run.argOut
          (b * (mkP smax smin rowptr col valueOpt mat .MIN).M
              * (mkP smax smin rowptr col valueOpt mat .MIN).K
            + m * (mkP smax smin rowptr col valueOpt mat .MIN).K + k)) = _
        rw [(mkP smax smin rowptr col valueOpt mat .MIN).run_arg_cell b m k hb hm hk]
      · show some ((mkP smax smin rowptr col valueOpt mat .MIN).run.out
          (b * (mkP smax smin rowptr col valueOpt mat .MIN).M
              * (mkP smax smin rowptr col valueOpt mat .MIN).K
            + m * (mkP smax smin rowptr col valueOpt mat .MIN).K + k)) = _
        rw [(mkP smax smin rowptr col valueOpt mat .MIN).run_out_cell b m k hb hm hk]
      · rw [← hc .MIN]
        exact heq
      · intro e he
        rw [if_pos rfl, ← hc .MIN e]
        exact hext e he
  · rw [spmm_eq_ok smax smin rowptr col valueOpt mat "max" .MAX hcpu hdim hnum rfl]
    constructor
    · intro hle
      obtain ⟨h0, hE⟩ := (mkP smax smin rowptr col valueOpt mat .MAX).cell_minmax_empty
        (Or.inr rfl) b m k hm hk hle
      constructor
      · show some ((mkP smax smin rowptr col valueOpt mat .MAX).run.out
          (b * (mkP smax smin rowptr col valueOpt mat .MAX).M
              * (mkP smax smin rowptr col valueOpt mat .MAX).K
            + m * (mkP smax smin rowptr col valueOpt mat .MAX).K + k)) = some 0
        rw [(mkP smax smin rowptr col valueOpt mat .MAX).run_out_cell b m k hb hm hk, h0]
      · show some ((mkP smax smin rowptr col valueOpt mat .MAX).run.argOut
          (b * (mkP smax smin rowptr col valueOpt mat .MAX).M
              * (mkP smax smin rowptr col valueOpt mat .MAX).K
            + m * (mkP smax smin rowptr col valueOpt mat .MAX).K + k)) = _
        rw [(mkP smax smin rowptr col valueOpt mat .MAX).run_arg_cell b m k hb hm hk, hE]
        rfl
    · intro hpos hex
      rw [if_neg (by decide)] at hex
      have hex2 : ∃ e ∈ entryList
          ((mkP smax smin rowptr col valueOpt mat .MAX).rowptrD ((m : Nat)))
          ((mkP smax smin rowptr col valueOpt mat .MAX).rowptrD ((m + 1 : Nat))),
          (mkP smax smin rowptr col valueOpt mat .MAX).cand b k e
            > (mkP smax smin rowptr col valueOpt mat .MAX).smin := by
        obtain ⟨e, he, hlt⟩ := hex
        exact ⟨e, he, by rw [hc .MAX e]; exact hlt⟩
      obtain ⟨hmem, heq, hext, hfind⟩ :=
        (mkP smax smin rowptr col valueOpt mat .MAX).cell_max_char rfl b m k hm hk
          hpos hex2
      refine ⟨(mkP smax smin rowptr col valueOpt mat .MAX).cellArg
          (b * (mkP smax smin rowptr col valueOpt mat .MAX).M + m) k,
        (mkP smax smin rowptr col valueOpt mat .MAX).cellOut
          (b * (mkP smax smin rowptr col valueOpt mat .MAX).M + m) k,
        ?_, ?_, hmem, ?_, ?_⟩
      · show some ((mkP smax smin rowptr col valueOpt mat .MAX).run.argOut
          (b * (mkP smax smin rowptr col valueOpt mat .MAX).M
              * (mkP smax smin rowptr col valueOpt mat .MAX).K
            + m * (mkP smax smin rowptr col valueOpt mat .MAX).K + k)) = _
        rw [(mkP smax smin rowptr col valueOpt mat .MAX).run_arg_cell b m k hb hm hk]
      · show some ((mkP smax smin rowptr col valueOpt mat .MAX).run.out
          (b * (mkP smax smin rowptr col valueOpt mat .MAX).M
              * (mkP smax smin rowptr col valueOpt mat .MAX).K
            + m * (mkP smax smin rowptr col valueOpt mat .MAX).K + k)) = _
        rw [(mkP smax smin rowptr col valueOpt mat .MAX).run_out_cell b m k hb hm hk]
      · rw [← hc .MAX]
        exact heq
      · intro e he
        rw [if_neg (by decide), ← hc .MAX e]
        exact hext e he

/-- Witness for the amended C3 at scenario A with "max": row 0's arg is an
entry of the row attaining the output value, with no larger contribution. -/
theorem C3_witness :
    ∃ a v,
      spmmArgAt (spmm i64max i64min rpA clA (some vlA) mtA "max") 0 = some a
      ∧ spmmOutAt (spmm i64max i64min rpA clA (some vlA) mtA "max") 0 = some v
      ∧ a ∈ rowEntries rpA 0
      ∧ wcontrib (some vlA) mtA clA 2 1 0 0 a = v
      ∧ ∀ e ∈ rowEntries rpA 0,
          if ("max" : String) = "min" then ¬ wcontrib (some vlA) mtA clA 2 1 0 0 e < v
          else ¬ wcontrib (some vlA) mtA clA 2 1 0 0 e > v :=
  (C3_amended_minmax_argout i64max i64min rpA clA (some vlA) mtA "max" 2 2 1 1 0 0 0
    (Or.inr rfl) (by decide) (by decide) (by decide) (by decide) (by decide)
    (by decide) (by decide) (by decide) (by decide) (by decide)).2
    (by decide) (by decide)

/-- MIN/MAX output cells depend only on the multiset of row candidates: two
kernel instantiations sharing reduction, limits, rowptr, M and K, whose
candidate lists for the row are permutations, produce the same output value. -/
theorem SpmmP.cellOut_perm_minmax (P1 P2 : SpmmP)
    (hred1 : P1.red = .MIN ∨ P1.red = .MAX)
    (hred : P2.red = P1.red) (hsmax : P2.smax = P1.smax) (hsmin : P2.smin = P1.smin)
    (hrp : P2.rowptrD = P1.rowptrD) (hM : P2.M = P1.M) (hK : P2.K = P1.K)
    (b m k : Nat) (hm : m < P1.M) (hk : k < P1.K)
    (hperm : ((entryList (P1.rowptrD ((m : Nat))) (P1.rowptrD ((m + 1 : Nat)))).map
        (P1.cand b k)).Perm
      ((entryList (P1.rowptrD ((m : Nat))) (P1.rowptrD ((m + 1 : Nat)))).map
        (P2.cand b k))) :
    P1.cellOut (b * P1.M + m) k = P2.cellOut (b * P2.M + m) k := by
  rw [P1.cellOut_minmax_val hred1 b m k hm hk]
  rw [P2.cellOut_minmax_val (by rw [hred]; exact hred1) b m k
    (by rw [hM]; exact hm) (by rw [hK]; exact hk)]
  rw [hred, hsmax, hsmin, hrp]
  by_cases hpos : P1.rowptrD ((m : Nat)) < P1.rowptrD ((m + 1 : Nat))
  · rw [if_pos hpos, if_pos hpos]
    rcases hred1 with h | h
    · rw [if_pos h, if_pos h]
      exact foldl_min_perm hperm P1.smax
    · rw [if_neg (by rw [h]; decide), if_neg (by rw [h]; decide)]
      exact foldl_max_perm hperm P1.smin
  · rw [if_neg hpos, if_neg hpos]

/-- C8 counterexample: with MIN on int64, row 1's two entries tie at the
extremal contribution 2^63-1 = numeric_limits max, but the reported index is
the stale 0 from row 0's update, not the first tied entry 1. -/
theorem C8_counterexample :
    wcontrib none mtD clD 3 1 0 0 1 = wcontrib none mtD clD 3 1 0 0 2
    ∧ (1 : Int) ∈ rowEntries rpD 1 ∧ (2 : Int) ∈ rowEntries rpD 1
    ∧ spmmArgAt (spmm i64max i64min rpD clD none mtD "min") 1 = some 0
    ∧ spmmArgAt (spmm i64max i64min rpD clD none mtD "min") 1 ≠ some 1 :=
  ⟨by decide, by decide, by decide, by decide, by decide⟩

/-- C8 amended: (i) for MIN/MAX on a nonempty row, PROVIDED some entry
contributes strictly beyond the init sentinel, arg_out is the first entry in
iteration order whose contribution equals the output value (ties keep the
earliest, since updates replace only on strict inequality); (ii) permuting
the (col, weight) pairs within a row never changes the output values. -/
theorem C8_amended_first_tie_and_perm :
    (∀ (smax smin : Int) (rowptr col : Tensor) (valueOpt : Option Tensor)
        (mat : Tensor) (tok : String) (M N K B b m k : Nat),
      tok = "min" ∨ tok = "max" →
      (rowptr.is_cuda = false ∧ col.is_cuda = false
        ∧ optIsCUDA valueOpt = false ∧ mat.is_cuda = false) →
      (rowptr.dim = 1 ∧ col.dim = 1 ∧ optDim1 valueOpt = true ∧ 2 ≤ mat.dim) →
      rowptr.numel ≠ 0 →
      M = rowptr.numel - 1 → N = mat.size2 → K = mat.size1 →
      B = mat.numel / (N * K) →
      b < B → m < M → k < K →
      rowptr.data ((m : Nat)) < rowptr.data ((m + 1 : Nat)) →
      (if tok = "min"
        then ∃ e ∈ rowEntries rowptr m, wcontrib valueOpt mat col N K b k e < smax
        else ∃ e ∈ rowEntries rowptr m, wcontrib valueOpt mat col N K b k e > smin) →
      ∃ a v,
        spmmArgAt (spmm smax smin rowptr col valueOpt mat tok)
            (b * M * K + m * K + k) = some a
        ∧ spmmOutAt (spmm smax smin rowptr col valueOpt mat tok)
            (b * M * K + m * K + k) = some v
        ∧ (rowEntries rowptr m).find?
            (fun e => decide (wcontrib valueOpt mat col N K b k e = v)) = some a)
    ∧ (∀ (smax smin : Int) (rowptr : Tensor) (col1 col2 : Tensor)
        (valueOpt1 valueOpt2 : Option Tensor) (mat : Tensor) (tok : String)
        (M N K B b m k : Nat),
      tok = "min" ∨ tok = "max" →
      (rowptr.is_cuda = false ∧ col1.is_cuda = false
        ∧ optIsCUDA valueOpt1 = false ∧ mat.is_cuda = false) →
      (rowptr.dim = 1 ∧ col1.dim = 1 ∧ optDim1 valueOpt1 = true ∧ 2 ≤ mat.dim) →
      (col2.is_cuda = false ∧ optIsCUDA valueOpt2 = false) →
      (col2.dim = 1 ∧ optDim1 valueOpt2 = true) →
      rowptr.numel ≠ 0 →
      M = rowptr.numel - 1 → N = mat.size2 → K = mat.size1 →
      B = mat.numel / (N * K) →
      b < B → m < M → k < K →
      ((rowEntries rowptr m).map
          (fun e => (col1.data e, weightOf valueOpt1 e))).Perm
        ((rowEntries rowptr m).map
          (fun e => (col2.data e, weightOf valueOpt2 e))) →
      spmmOutAt (spmm smax smin rowptr col1 valueOpt1 mat tok)
          (b * M * K + m * K + k)
        = spmmOutAt (spmm smax smin rowptr col2 valueOpt2 mat tok)
          (b * M * K + m * K + k)) := by
  constructor
  · intro smax smin rowptr col valueOpt mat tok M N K B b m k htok hcpu hdim hnum
      hM hN hK hB hb hm hk hpos hex
    subst hM hN hK hB
    have hc : ∀ red e, (mkP smax smin rowptr col valueOpt mat red).cand b k e
        = wcontrib valueOpt mat col mat.size2 mat.size1 b k e :=
      fun red e => cand_mkP smax smin rowptr col valueOpt mat red b k e
    rcases htok with rfl | rfl
    · rw [if_pos rfl] at hex
      rw [spmm_eq_ok smax smin rowptr col valueOpt mat "min" .MIN hcpu hdim hnum rfl]
      have hex2 : ∃ e ∈ entryList
          ((mkP smax smin rowptr col valueOpt mat .MIN).rowptrD ((m : Nat)))
          ((mkP smax smin rowptr col valueOpt mat .MIN).rowptrD ((m + 1 : Nat))),
          (mkP smax smin rowptr col valueOpt mat .MIN).cand b k e
            < (mkP smax smin rowptr col valueOpt mat .MIN).smax := by
        obtain ⟨e, he, hlt⟩ := hex
        exact ⟨e, he, by rw [hc .MIN e]; exact hlt⟩
      obtain ⟨hmem, heq, hext, hfind⟩ :=
        (mkP smax smin rowptr col valueOpt mat .MIN).cell_min_char rfl b m k hm hk
          hpos hex2
      refine ⟨(mkP smax smin rowptr col valueOpt mat .MIN).cellArg
          (b * (mkP smax smin rowptr col valueOpt mat .MIN).M + m) k,
        (mkP smax smin rowptr col valueOpt mat .MIN).cellOut
          (b * (mkP smax smin rowptr col valueOpt mat .MIN).M + m) k,
        ?_, ?_, ?_⟩
      · show some ((mkP smax smin rowptr col valueOpt mat .MIN).run.argOut
          (b * (mkP smax smin rowptr col valueOpt mat .MIN).M
              * (mkP smax smin rowptr col valueOpt mat .MIN).K
            + m * (mkP smax smin rowptr col valueOpt mat .MIN).K + k)) = _
        rw [(mkP smax smin rowptr col valueOpt mat .MIN).run_arg_cell b m k hb hm hk]
      · show some ((mkP smax smin rowptr col valueOpt mat .MIN).run.out
          (b * (mkP smax smin rowptr col valueOpt mat .MIN).M
              * (mkP smax smin rowptr col valueOpt mat .MIN).K
            + m * (mkP smax smin rowptr col valueOpt mat .MIN).K + k)) = _
        rw [(mkP smax smin rowptr col valueOpt mat .MIN).run_out_cell b m k hb hm hk]
      · have hpred : (fun e => decide (wcontrib valueOpt mat col mat.size2 mat.size1 b k e
            = (mkP smax smin rowptr col valueOpt mat .MIN).cellOut
                (b * (mkP smax smin rowptr col valueOpt mat .MIN).M + m) k))
            = (fun e => decide ((mkP smax smin rowptr col valueOpt mat .MIN).cand b k e
            = (mkP smax smin rowptr col valueOpt mat .MIN).cellOut
                (b * (mkP smax smin rowptr col valueOpt mat .MIN).M + m) k)) := by
          funext e
          rw [hc .MIN e]
        rw [hpred]
        exact hfind
    · rw [if_neg (by decide)] at hex
      rw [spmm_eq_ok smax smin rowptr col valueOpt mat "max" .MAX hcpu hdim hnum rfl]
      have hex2 : ∃ e ∈ entryList
          ((mkP smax smin rowptr col valueOpt mat .MAX).rowptrD ((m : Nat)))
          ((mkP smax smin rowptr col valueOpt mat .MAX).rowptrD ((m + 1 : Nat))),
          (mkP smax smin rowptr col valueOpt mat .MAX).cand b k e
            > (mkP smax smin rowptr col valueOpt mat .MAX).smin := by
        obtain ⟨e, he, hlt⟩ := hex
        exact ⟨e, he, by rw [hc .MAX e]; exact hlt⟩
      obtain ⟨hmem, heq, hext, hfind⟩ :=
        (mkP smax smin rowptr col valueOpt mat .MAX).cell_max_char rfl b m k hm hk
          hpos hex2
      refine ⟨(mkP smax smin rowptr col valueOpt mat .MAX).cellArg
          (b * (mkP smax smin rowptr col valueOpt mat .MAX).M + m) k,
        (mkP smax smin rowptr col valueOpt mat .MAX).cellOut
          (b * (mkP smax smin rowptr col valueOpt mat .MAX).M + m) k,
        ?_, ?_, ?_⟩
      · show some ((mkP smax smin rowptr col valueOpt mat .MAX).run.argOut
          (b * (mkP smax smin rowptr col valueOpt mat .MAX).M
              * (mkP smax smin rowptr col valueOpt mat .MAX).K
            + m * (mkP smax smin rowptr col valueOpt mat .MAX).K + k)) = _
        rw [(mkP smax smin rowptr col valueOpt mat .MAX).run_arg_cell b m k hb hm hk]
      · show some ((mkP smax smin rowptr col valueOpt mat .MAX).run.out
          (b * (mkP smax smin rowptr col valueOpt mat .MAX).M
              * (mkP smax smin rowptr col valueOpt mat .MAX).K
            + m * (mkP smax smin rowptr col valueOpt mat .MAX).K + k)) = _
        rw [(mkP smax smin rowptr col valueOpt mat .MAX).run_out_cell b m k hb hm hk]
      · have hpred : (fun e => decide (wcontrib valueOpt mat col mat.size2 mat.size1 b k e
            = (mkP smax smin rowptr col valueOpt mat .MAX).cellOut
                (b * (mkP smax smin rowptr col valueOpt mat .MAX).M + m) k))
            = (fun e => decide ((mkP smax smin rowptr col valueOpt mat .MAX).cand b k e
            = (mkP smax smin rowptr col valueOpt mat .MAX).cellOut
                (b * (mkP smax smin rowptr col valueOpt mat .MAX).M + m) k)) := by
          funext e
          rw [hc .MAX e]
        rw [hpred]
        exact hfind
  · intro smax smin rowptr col1 col2 valueOpt1 valueOpt2 mat tok M N K B b m k
      htok hcpu1 hdim1 hcpu2 hdim2 hnum hM hN hK hB hb hm hk hperm
    subst hM hN hK hB
    have hf1 : (mkP smax smin rowptr col1 valueOpt1 mat .MIN).cand b k
        = candPair mat mat.size2 mat.size1 b k
            ∘ (fun e => (col1.data e, weightOf valueOpt1 e)) :=
      funext fun e => cand_mkP smax smin rowptr col1 valueOpt1 mat .MIN b k e
    have hf2 : (mkP smax smin rowptr col2 valueOpt2 mat .MIN).cand b k
        = candPair mat mat.size2 mat.size1 b k
            ∘ (fun e => (col2.data e, weightOf valueOpt2 e)) :=
      funext fun e => cand_mkP smax smin rowptr col2 valueOpt2 mat .MIN b k e
    have hf1x : (mkP smax smin rowptr col1 valueOpt1 mat .MAX).cand b k
        = candPair mat mat.size2 mat.size1 b k
            ∘ (fun e => (col1.data e, weightOf valueOpt1 e)) :=
      funext fun e => cand_mkP smax smin rowptr col1 valueOpt1 mat .MAX b k e
    have hf2x : (mkP smax smin rowptr col2 valueOpt2 mat .MAX).cand b k
        = candPair mat mat.size2 mat.size1 b k
            ∘ (fun e => (col2.data e, weightOf valueOpt2 e)) :=
      funext fun e => cand_mkP smax smin rowptr col2 valueOpt2 mat .MAX b k e
    rcases htok with rfl | rfl
    · rw [spmm_eq_ok smax smin rowptr col1 valueOpt1 mat "min" .MIN hcpu1 hdim1 hnum rfl,
        spmm_eq_ok smax smin rowptr col2 valueOpt2 mat "min" .MIN
          ⟨hcpu1.1, hcpu2.1, hcpu2.2, hcpu1.2.2.2⟩
          ⟨hdim1.1, hdim2.1, hdim2.2, hdim1.2.2.2⟩ hnum rfl]
      show some ((mkP smax smin rowptr col1 valueOpt1 mat .MIN).run.out
          (b * (mkP smax smin rowptr col1 valueOpt1 mat .MIN).M
              * (mkP smax smin rowptr col1 valueOpt1 mat .MIN).K
            + m * (mkP smax smin rowptr col1 valueOpt1 mat .MIN).K + k))
        = some ((mkP smax smin rowptr col2 valueOpt2 mat .MIN).run.out
          (b * (mkP smax smin rowptr col2 valueOpt2 mat .MIN).M
              * (mkP smax smin rowptr col2 valueOpt2 mat .MIN).K
            + m * (mkP smax smin rowptr col2 valueOpt2 mat .MIN).K + k))
      rw [(mkP smax smin rowptr col1 valueOpt1 mat .MIN).run_out_cell b m k hb hm hk,
        (mkP smax smin rowptr col2 valueOpt2 mat .MIN).run_out_cell b m k hb hm hk]
      congr 1
      apply SpmmP.cellOut_perm_minmax
        (mkP smax smin rowptr col1 valueOpt1 mat .MIN)
        (mkP smax smin rowptr col2 valueOpt2 mat .MIN)
        (Or.inl rfl) rfl rfl rfl rfl rfl rfl b m k hm hk
      rw [hf1, hf2, ← List.map_map, ← List.map_map]
      exact hperm.map (candPair mat mat.size2 mat.size1 b k)
    · rw [spmm_eq_ok smax smin rowptr col1 valueOpt1 mat "max" .MAX hcpu1 hdim1 hnum rfl,
        spmm_eq_ok smax smin rowptr col2 valueOpt2 mat "max" .MAX
          ⟨hcpu1.1, hcpu2.1, hcpu2.2, hcpu1.2.2.2⟩
          ⟨hdim1.1, hdim2.1, hdim2.2, hdim1.2.2.2⟩ hnum rfl]
      show some ((mkP smax smin rowptr col1 valueOpt1 mat .MAX).run.out
          (b * (mkP smax smin rowptr col1 valueOpt1 mat .MAX).M
              * (mkP smax smin rowptr col1 valueOpt1 mat .MAX).K
            + m * (mkP smax smin rowptr col1 valueOpt1 mat .MAX).K + k))
        = some ((mkP smax smin rowptr col2 valueOpt2 mat .MAX).run.out
          (b * (mkP smax smin rowptr col2 valueOpt2 mat .MAX).M
              * (mkP smax smin rowptr col2 valueOpt2 mat .MAX).K
            + m * (mkP smax smin rowptr col2 valueOpt2 mat .MAX).K + k))
      rw [(mkP smax smin rowptr col1 valueOpt1 mat .MAX).run_out_cell b m k hb hm hk,
        (mkP smax smin rowptr col2 valueOpt2 mat .MAX).run_out_cell b m k hb hm hk]
      congr 1
      apply SpmmP.cellOut_perm_minmax
        (mkP smax smin rowptr col1 valueOpt1 mat .MAX)
        (mkP smax smin rowptr col2 valueOpt2 mat .MAX)
        (Or.inr rfl) rfl rfl rfl rfl rfl rfl b m k hm hk
      rw [hf1x, hf2x, ← List.map_map, ← List.map_map]
      exact hperm.map (candPair mat mat.size2 mat.size1 b k)

/-- Witness for the amended C8 at scenario A: (i) "max" reports the first
entry attaining the row-0 maximum; (ii) swapping row 0's two (col, value)
pairs leaves the output value unchanged. -/
theorem C8_witness :
    (∃ a v,
      spmmArgAt (spmm i64max i64min rpA clA (some vlA) mtA "max") 0 = some a
      ∧ spmmOutAt (spmm i64max i64min rpA clA (some vlA) mtA "max") 0 = some v
      ∧ (rowEntries rpA 0).find?
          (fun e => decide (wcontrib (some vlA) mtA clA 2 1 0 0 e = v)) = some a)
    ∧ spmmOutAt (spmm i64max i64min rpA clA (some vlA) mtA "max") 0
        = spmmOutAt (spmm i64max i64min rpA clA2 (some vlA2) mtA "max") 0 :=
  ⟨C8_amended_first_tie_and_perm.1 i64max i64min rpA clA (some vlA) mtA "max"
      2 2 1 1 0 0 0 (Or.inr rfl) (by decide) (by decide) (by decide) (by decide)
      (by decide) (by decide) (by decide) (by decide) (by decide) (by decide)
      (by decide) (by decide),
   C8_amended_first_tie_and_perm.2 i64max i64min rpA clA clA2 (some vlA) (some vlA2)
      mtA "max" 2 2 1 1 0 0 0 (Or.inr rfl) (by decide) (by decide) (by decide)
      (by decide) (by decide) (by decide) (by decide) (by decide) (by decide)
      (by decide) (by decide) (by decide) (by decide)⟩
